import Mathlib

/-!
Verification development for the yamlstudio OpenAPI editor core.

The development shallowly embeds the parts of the source that the
specification talks about:

* the untyped parsed-YAML/JS value space (js-yaml's output) together with
  the JavaScript object/truthiness semantics the source relies on;
* the in-memory Document model (the TypeScript interfaces of the Index page);
* the derived-value recomputation rules (`updateGlobalSecurity`, the
  path-parameter re-derivation of `PathMethodForm`, the schema property
  operations of `SchemaBuilder`);
* the serializer (`generateProperYaml` of `YamlPreview.tsx`, composed with
  the spec object built by `generateYaml` of the Index page), modelled at the
  granularity of emitted lines;
* the importer (`importFromYaml` of the Index page);
* the validation entry point (`validateYaml` of `yamlValidator.ts`), with the
  external parser and schema validator abstracted as oracle inputs.
-/

namespace YamlStudio

/-- Untyped parsed-YAML / JavaScript value, as produced by js-yaml's `load`.
Numeric scalars are modelled as integers; `null` also stands for the
JavaScript `undefined`. -/
inductive Yaml where
  | null
  | bool (b : Bool)
  | num (n : Int)
  | str (s : String)
  | arr (items : List Yaml)
  | obj (fields : List (String × Yaml))
deriving Repr

mutual

def Yaml.decEq : (a b : Yaml) → Decidable (a = b)
  | .null, .null => .isTrue rfl
  | .bool a, .bool b =>
    match Bool.decEq a b with
    | .isTrue h => .isTrue (h ▸ rfl)
    | .isFalse h => .isFalse (fun e => h (Yaml.bool.inj e))
  | .num a, .num b =>
    match Int.decEq a b with
    | .isTrue h => .isTrue (h ▸ rfl)
    | .isFalse h => .isFalse (fun e => h (Yaml.num.inj e))
  | .str a, .str b =>
    match String.decEq a b with
    | .isTrue h => .isTrue (h ▸ rfl)
    | .isFalse h => .isFalse (fun e => h (Yaml.str.inj e))
  | .arr a, .arr b =>
    match Yaml.decEqList a b with
    | .isTrue h => .isTrue (h ▸ rfl)
    | .isFalse h => .isFalse (fun e => h (Yaml.arr.inj e))
  | .obj a, .obj b =>
    match Yaml.decEqFields a b with
    | .isTrue h => .isTrue (h ▸ rfl)
    | .isFalse h => .isFalse (fun e => h (Yaml.obj.inj e))
  | .null, .bool _ => .isFalse nofun
  | .null, .num _ => .isFalse nofun
  | .null, .str _ => .isFalse nofun
  | .null, .arr _ => .isFalse nofun
  | .null, .obj _ => .isFalse nofun
  | .bool _, .null => .isFalse nofun
  | .bool _, .num _ => .isFalse nofun
  | .bool _, .str _ => .isFalse nofun
  | .bool _, .arr _ => .isFalse nofun
  | .bool _, .obj _ => .isFalse nofun
  | .num _, .null => .isFalse nofun
  | .num _, .bool _ => .isFalse nofun
  | .num _, .str _ => .isFalse nofun
  | .num _, .arr _ => .isFalse nofun
  | .num _, .obj _ => .isFalse nofun
  | .str _, .null => .isFalse nofun
  | .str _, .bool _ => .isFalse nofun
  | .str _, .num _ => .isFalse nofun
  | .str _, .arr _ => .isFalse nofun
  | .str _, .obj _ => .isFalse nofun
  | .arr _, .null => .isFalse nofun
  | .arr _, .bool _ => .isFalse nofun
  | .arr _, .num _ => .isFalse nofun
  | .arr _, .str _ => .isFalse nofun
  | .arr _, .obj _ => .isFalse nofun
  | .obj _, .null => .isFalse nofun
  | .obj _, .bool _ => .isFalse nofun
  | .obj _, .num _ => .isFalse nofun
  | .obj _, .str _ => .isFalse nofun
  | .obj _, .arr _ => .isFalse nofun

def Yaml.decEqList : (a b : List Yaml) → Decidable (a = b)
  | [], [] => .isTrue rfl
  | [], _ :: _ => .isFalse nofun
  | _ :: _, [] => .isFalse nofun
  | x :: xs, y :: ys =>
    match Yaml.decEq x y with
    | .isFalse h => .isFalse (fun e => h (List.cons.inj e).1)
    | .isTrue h1 =>
      match Yaml.decEqList xs ys with
      | .isTrue h2 => .isTrue (by rw [h1, h2])
      | .isFalse h => .isFalse (fun e => h (List.cons.inj e).2)

def Yaml.decEqFields : (a b : List (String × Yaml)) → Decidable (a = b)
  | [], [] => .isTrue rfl
  | [], _ :: _ => .isFalse nofun
  | _ :: _, [] => .isFalse nofun
  | (k1, v1) :: xs, (k2, v2) :: ys =>
    match String.decEq k1 k2 with
    | .isFalse h => .isFalse (fun e => h (congrArg (fun l => (l.headD ("", Yaml.null)).1) e))
    | .isTrue hk =>
      match Yaml.decEq v1 v2 with
      | .isFalse h => .isFalse (fun e => h (congrArg (fun l => (l.headD ("", Yaml.null)).2) e))
      | .isTrue hv =>
        match Yaml.decEqFields xs ys with
        | .isTrue ht => .isTrue (by rw [hk, hv, ht])
        | .isFalse h => .isFalse (fun e => h (List.cons.inj e).2)

end

instance : DecidableEq Yaml := Yaml.decEq

/-- JavaScript truthiness: `null`/`undefined`, `false`, `0` and `""` are
falsy; arrays and objects (even empty ones) are truthy. -/
def Yaml.truthy : Yaml → Bool
  | .null => false
  | .bool b => b
  | .num n => n != 0
  | .str s => s ≠ ""
  | .arr _ => true
  | .obj _ => true

/-- `opt.truthy`: truthiness of a possibly-undefined value. -/
def optTruthy : Option Yaml → Bool
  | some v => v.truthy
  | none => false

/-- Key lookup in a JavaScript object (parsed YAML mappings have unique
keys, so first match is the value). -/
def jsObjGet (m : List (String × α)) (k : String) : Option α :=
  (m.find? (fun kv => kv.1 = k)).map Prod.snd

/-- `delete m[k]` on a JavaScript object. -/
def jsObjDelete (m : List (String × α)) (k : String) : List (String × α) :=
  m.filter (fun kv => kv.1 ≠ k)

/-- `m[k] = v` on a JavaScript object: overwrites in place when the key
exists, otherwise appends (JS insertion order for string keys). -/
def jsObjSet (m : List (String × α)) (k : String) (v : α) : List (String × α) :=
  if m.any (fun kv => kv.1 = k) then
    m.map (fun kv => if kv.1 = k then (k, v) else kv)
  else m ++ [(k, v)]

/-- Property access `v[k]` on a non-null JS value: objects look the key up,
every other value yields `undefined` (here: `none`). -/
def Yaml.member (v : Yaml) (k : String) : Option Yaml :=
  match v with
  | .obj fields => jsObjGet fields k
  | _ => none

/-- Plain property access `v.k`, which throws a TypeError when `v` is
`null`/`undefined`. -/
def Yaml.memberE (v : Yaml) (k : String) : Except Unit (Option Yaml) :=
  match v with
  | .null => .error ()
  | _ => .ok (v.member k)

/-- Optional-chaining access `v?.k`: yields `undefined` instead of throwing
on `null`/`undefined`. -/
def Yaml.memberOpt (v : Yaml) (k : String) : Option Yaml :=
  match v with
  | .null => none
  | _ => v.member k

/-- `Object.entries(v)` for a non-null value: objects yield their key/value
pairs, arrays index/value pairs, strings index/character pairs, other
scalars an empty list. -/
def Yaml.entries : Yaml → List (String × Yaml)
  | .obj fields => fields
  | .arr items => items.enum.map (fun iv => (toString iv.1, iv.2))
  | .str s => s.data.enum.map (fun ic => (toString ic.1, Yaml.str (String.singleton ic.2)))
  | _ => []

/-- `Object.entries(v)`, throwing on `null`/`undefined`. -/
def Yaml.entriesE (v : Yaml) : Except Unit (List (String × Yaml)) :=
  match v with
  | .null => .error ()
  | _ => .ok v.entries

/-- The JS expression `x || d` for a possibly-undefined `x`. -/
def jsOr (v : Option Yaml) (d : Yaml) : Yaml :=
  match v with
  | some x => if x.truthy then x else d
  | none => d

/-- Boundary coercion of a scalar to the string stored in a typed model
field (titles, descriptions, ...). The source stores the raw JS value in a
string-typed field; the model observes it as its textual form. -/
def Yaml.asString : Yaml → String
  | .str s => s
  | .num n => toString n
  | .bool b => if b then "true" else "false"
  | .null => "null"
  | .arr _ => ""
  | .obj _ => ""

/-- The JS pattern `x || dflt` read into a string-typed model field. -/
def getStrOr (v : Option Yaml) (dflt : String) : String :=
  match v with
  | some x => if x.truthy then x.asString else dflt
  | none => dflt

/-- A possibly-absent string field passed through as-is (falsy values behave
as absent under the truthiness guards that later read the field). -/
def getStrOpt (v : Option Yaml) : Option String :=
  match v with
  | some x => if x.truthy then some x.asString else none
  | none => none

/-- A list-of-strings field read with the `x || []` pattern. -/
def getStrListOr (v : Option Yaml) : List String :=
  match v with
  | some (.arr items) => items.map Yaml.asString
  | _ => []

/-! ## The Document model (TypeScript interfaces of the Index page) -/

structure Contact where
  name : Option String := none
  email : Option String := none
  url : Option String := none
deriving Repr, DecidableEq

structure ApiInfo where
  title : String
  description : String
  version : String
  contact : Option Contact := none
deriving Repr, DecidableEq

structure Server where
  url : String
  description : String
deriving Repr, DecidableEq

structure ParamSchema where
  type : String
deriving Repr, DecidableEq

/-- An operation parameter.  The source field `in` is a Lean keyword and is
embedded as `loc`; at runtime it is an arbitrary string ('query', 'header',
'path', 'cookie' for UI-created parameters). -/
structure Parameter where
  name : String
  loc : String
  required : Bool
  description : String
  schema : ParamSchema
  xZiaAgentParamType : Option String := none
deriving Repr, DecidableEq

/-- A request body; `schema` is the untyped
`content['application/json'].schema` value of the source. -/
structure RequestBody where
  required : Bool
  schema : Yaml
deriving Repr, DecidableEq

structure Response where
  statusCode : String
  description : String
  content : Option Yaml := none
deriving Repr, DecidableEq

structure Operation where
  summary : String
  description : String
  operationId : String
  tags : List String
  security : List Yaml
  parameters : List Parameter
  requestBody : Option RequestBody := none
  responses : List Response
deriving Repr, DecidableEq

structure Path where
  path : String
  methods : List (String × Operation)
deriving Repr, DecidableEq

structure SchemaProperty where
  type : String
  description : String
  xZiaAgentParamType : Option String := none
deriving Repr, DecidableEq

structure Schema where
  name : String
  type : String := "object"
  properties : List (String × SchemaProperty)
  required : List String
deriving Repr, DecidableEq

structure SecurityScheme where
  name : String
  type : String
  scheme : Option String := none
  bearerFormat : Option String := none
  flows : Option Yaml := none
  scopes : Option (List (String × String)) := none
deriving Repr, DecidableEq

/-- The top-level Document aggregate (the Index page's state). -/
structure Document where
  apiInfo : ApiInfo
  servers : List Server
  paths : List Path
  schemas : List Schema
  securitySchemes : List SecurityScheme
  globalSecurity : List Yaml
deriving Repr, DecidableEq

/-- The initial (empty) document state of the Index page. -/
def emptyDocument : Document :=
  { apiInfo := { title := "", description := "", version := "1.0.0" }
    servers := []
    paths := []
    schemas := []
    securitySchemes := []
    globalSecurity := [] }

/-! ## Derived-value recomputation rules -/

/-- `updateGlobalSecurity` (Index page, lines 367-376): each scheme of type
oauth2 whose scopes object is present (JS objects, even empty, are truthy)
maps to a one-key object holding its scope names; every other scheme maps to
a one-key object holding an empty array. -/
def updateGlobalSecurity (schemes : List SecurityScheme) : List Yaml :=
  schemes.map fun scheme =>
    if scheme.type = "oauth2" then
      match scheme.scopes with
      | some scopes => Yaml.obj [(scheme.name, Yaml.arr (scopes.map (fun kv => Yaml.str kv.1)))]
      | none => Yaml.obj [(scheme.name, Yaml.arr [])]
    else Yaml.obj [(scheme.name, Yaml.arr [])]

/-- `removeProperty` (SchemaBuilder.tsx, lines 63-68): delete the property
and filter its name out of `required`. -/
def removeProperty (schema : Schema) (propertyName : String) : Schema :=
  { schema with
    properties := jsObjDelete schema.properties propertyName
    required := schema.required.filter (fun req => req ≠ propertyName) }

/-- The `!name.trim()` check: true when the string has no non-whitespace
character. -/
def isBlank (s : String) : Bool :=
  s.data.all (fun c => c.isWhitespace)

/-- Replace the first occurrence of `old` in a list by `new` (the source's
`indexOf` followed by an index assignment). -/
def replaceFirst : List String → String → String → List String
  | [], _, _ => []
  | r :: rest, old, new => if r = old then new :: rest else r :: replaceFirst rest old new

/-- `renameProperty` (SchemaBuilder.tsx, lines 82-97): move the property
value to the new name and rewrite the first matching entry of `required`.
When the old name is absent the JS code stores `undefined` under the new
key; the model keeps the key with a placeholder value. -/
def renameProperty (schema : Schema) (oldName newName : String) : Schema :=
  if oldName = newName ∨ isBlank newName then schema
  else
    let deleted := jsObjDelete schema.properties oldName
    let props :=
      match jsObjGet schema.properties oldName with
      | some property => jsObjSet deleted newName property
      | none => jsObjSet deleted newName { type := "", description := "" }
    { schema with
      properties := props
      required := replaceFirst schema.required oldName newName }

/-! ## Serializer (YamlPreview.tsx `generateProperYaml`, fed by the spec
object built in the Index page's `generateYaml`).

The source builds the YAML text by string concatenation; every appended
chunk is a whole number of output lines, so the serializer is modelled as a
list of emitted lines, joined with a trailing newline each.  (Two corner
cases are noted at `securityItemLines`.) -/

/-- The `if (x) yaml += pre + x + newline` pattern for a string field. -/
def strLine (pre s : String) : List String :=
  if s ≠ "" then [pre ++ s] else []

/-- The same pattern for an optional string field. -/
def optLine (pre : String) (v : Option String) : List String :=
  match v with
  | some s => strLine pre s
  | none => []

/-- The same pattern for an untyped field rendered with interpolation. -/
def optYamlLine (pre : String) (v : Option Yaml) : List String :=
  match v with
  | some x => if x.truthy then [pre ++ x.asString] else []
  | none => []

/-- `info:` section (YamlPreview.tsx lines 63-75). -/
def infoLines (info : ApiInfo) : List String :=
  "info:"
  :: strLine "  title: " info.title
  ++ strLine "  description: " info.description
  ++ strLine "  version: " info.version
  ++ (match info.contact with
      | some contact =>
        "  contact:"
        :: optLine "    name: " contact.name
        ++ optLine "    email: " contact.email
        ++ optLine "    url: " contact.url
      | none => [])

/-- One server entry (YamlPreview.tsx lines 80-83). -/
def serverLines (server : Server) : List String :=
  ("- url: " ++ server.url) :: strLine "  description: " server.description

/-- `servers:` section (YamlPreview.tsx lines 78-84). -/
def serversLines (servers : List Server) : List String :=
  if servers ≠ [] then "servers:" :: servers.flatMap serverLines else []

/-- Rendering of a security-requirement scope list
(`[ 'a', 'b' ]` or `[]`, YamlPreview.tsx lines 111-115). -/
def scopesText (scopes : Yaml) : String :=
  match scopes with
  | .arr items =>
    if items ≠ [] then "[ '" ++ String.intercalate "', '" (items.map Yaml.asString) ++ "' ]"
    else "[]"
  | _ => "[]"

/-- One entry of a security list (YamlPreview.tsx lines 106-117 and
222-233): the first key continues the `- ` line, later keys are indented.
When the entry has no keys the source leaves the `- ` fragment
unterminated and the next emission continues that line; the model closes
the line instead, which introduces no unindented line.  In the source,
`Object.entries(null)` in this loop would throw and produce no text at
all; the model renders no keys for it. -/
def securityItemLines (firstIndent contIndent : String) (sec : Yaml) : List String :=
  match sec.entries with
  | [] => [firstIndent]
  | (schemeName, scopes) :: rest =>
    (firstIndent ++ (schemeName ++ (": " ++ scopesText scopes)))
    :: rest.map (fun kv => contIndent ++ (kv.1 ++ (": " ++ scopesText kv.2)))

/-- One parameter entry (YamlPreview.tsx lines 122-132); `param.schema` is
always an object in the model, so the `if (param.schema)` guard is always
taken. -/
def paramLines (param : Parameter) : List String :=
  ("      - name: " ++ param.name)
  :: ("        in: " ++ param.loc)
  :: (if param.required then ["        required: true"] else [])
  ++ strLine "        description: " param.description
  ++ optLine "        x-zia-agent-param-type: " param.xZiaAgentParamType
  ++ ["        schema:", "          type: " ++ param.schema.type]

/-- The request-body block (YamlPreview.tsx lines 133-144). -/
def requestBodyLines (rb : RequestBody) : List String :=
  "      requestBody:"
  :: (if rb.required then ["        required: true"] else [])
  ++ ["        content:", "          application/json:", "            schema:"]
  ++ (let ref := rb.schema.memberOpt "$ref"
      if optTruthy ref then ["              $ref: '" ++ ((ref.getD .null).asString ++ "'")]
      else ["              type: object"])
  ++ ["            x-zia-agent-param-type: dynamic"]

/-- One response entry (YamlPreview.tsx lines 148-161). -/
def responseLines (response : Response) : List String :=
  ("        '" ++ (response.statusCode ++ "':"))
  :: ("          description: " ++ response.description)
  :: (match response.content with
      | some content =>
        let schema := (content.memberOpt "application/json").bind (fun aj => aj.memberOpt "schema")
        match schema with
        | some sch =>
          if sch.truthy then
            ["          content:", "            application/json:", "              schema:"]
            ++ (let ref := sch.member "$ref"
                if optTruthy ref then
                  ["                $ref: '" ++ ((ref.getD .null).asString ++ "'")]
                else ["                type: " ++ getStrOr (sch.member "type") "object"])
          else []
        | none => []
      | none => [])

/-- `responses:` block of one operation (YamlPreview.tsx lines 146-162). -/
def responsesLines (responses : List Response) : List String :=
  if responses ≠ [] then "      responses:" :: responses.flatMap responseLines else []

/-- One operation under a path (YamlPreview.tsx lines 91-163). -/
def operationLines (method : String) (operation : Operation) : List String :=
  ("    " ++ (method ++ ":"))
  :: strLine "      summary: " operation.summary
  ++ strLine "      description: " operation.description
  ++ strLine "      operationId: " operation.operationId
  ++ (if operation.tags ≠ [] then
        "      tags:" :: operation.tags.map (fun tag => "      - " ++ tag)
      else [])
  ++ (if operation.security ≠ [] then
        "      security:" :: operation.security.flatMap (securityItemLines "      - " "        ")
      else [])
  ++ (if operation.parameters ≠ [] then
        "      parameters:" :: operation.parameters.flatMap paramLines
      else [])
  ++ (match operation.requestBody with
      | some rb => requestBodyLines rb
      | none => [])
  ++ responsesLines operation.responses

/-- One path entry (YamlPreview.tsx lines 89-164). -/
def pathEntryLines (entry : String × List (String × Operation)) : List String :=
  ("  " ++ (entry.1 ++ ":")) :: entry.2.flatMap (fun mo => operationLines mo.1 mo.2)

/-- `paths:` section (YamlPreview.tsx lines 87-165). -/
def pathsLines (pathsObj : List (String × List (String × Operation))) : List String :=
  if pathsObj ≠ [] then "paths:" :: pathsObj.flatMap pathEntryLines else []

/-- One property of a component schema (YamlPreview.tsx lines 178-183). -/
def schemaPropLines (kv : String × SchemaProperty) : List String :=
  ("        " ++ (kv.1 ++ ":"))
  :: ("          type: " ++ kv.2.type)
  :: strLine "          description: " kv.2.description
  ++ optLine "          x-zia-agent-param-type: " kv.2.xZiaAgentParamType

/-- One component schema (YamlPreview.tsx lines 173-191). -/
def schemaEntryLines (kv : String × Schema) : List String :=
  ("    " ++ (kv.1 ++ ":"))
  :: ("      type: " ++ kv.2.type)
  :: (if kv.2.properties ≠ [] then
        "      properties:" :: kv.2.properties.flatMap schemaPropLines
      else [])
  ++ (if kv.2.required ≠ [] then
        "      required:" :: kv.2.required.map (fun req => "      - " ++ req)
      else [])

/-- One oauth2 flow (YamlPreview.tsx lines 203-213). -/
def flowLines (kv : String × Yaml) : List String :=
  ("        " ++ (kv.1 ++ ":"))
  :: optYamlLine "          authorizationUrl: " (kv.2.member "authorizationUrl")
  ++ optYamlLine "          tokenUrl: " (kv.2.member "tokenUrl")
  ++ (let scopes := kv.2.member "scopes"
      if optTruthy scopes ∧ (scopes.getD .null).entries ≠ [] then
        "          scopes:"
        :: (scopes.getD .null).entries.map
            (fun s => "            '" ++ (s.1 ++ ("': " ++ s.2.asString)))
      else [])

/-- One security scheme (YamlPreview.tsx lines 196-215). -/
def schemeEntryLines (kv : String × SecurityScheme) : List String :=
  ("    " ++ (kv.1 ++ ":"))
  :: ("      type: " ++ kv.2.type)
  :: optLine "      scheme: " kv.2.scheme
  ++ optLine "      bearerFormat: " kv.2.bearerFormat
  ++ (match kv.2.flows with
      | some flows =>
        if flows.truthy then "      flows:" :: flows.entries.flatMap flowLines else []
      | none => [])

/-- `components:` section (YamlPreview.tsx lines 168-217).  The Index page
always builds a components object, so `if (spec.components)` is always
taken and the `components:` line is emitted unconditionally. -/
def componentsLines (schemas : List (String × Schema))
    (schemes : List (String × SecurityScheme)) : List String :=
  "components:"
  :: (if schemas ≠ [] then "  schemas:" :: schemas.flatMap schemaEntryLines else [])
  ++ (if schemes ≠ [] then "  securitySchemes:" :: schemes.flatMap schemeEntryLines else [])

/-- Top-level `security:` section (YamlPreview.tsx lines 220-234). -/
def globalSecurityLines (gs : List Yaml) : List String :=
  if gs ≠ [] then "security:" :: gs.flatMap (securityItemLines "- " "  ") else []

/-- The `paths` object of the Index page's `generateYaml` (reduce keyed by
path string; a duplicated path string overwrites in place). -/
def specPaths (paths : List Path) : List (String × List (String × Operation)) :=
  paths.foldl (fun acc p => jsObjSet acc p.path p.methods) []

/-- The `components.schemas` object of the Index page's `generateYaml`. -/
def specSchemas (schemas : List Schema) : List (String × Schema) :=
  schemas.foldl (fun acc s => jsObjSet acc s.name s) []

/-- The `components.securitySchemes` object of the Index page's
`generateYaml`. -/
def specSchemes (schemes : List SecurityScheme) : List (String × SecurityScheme) :=
  schemes.foldl (fun acc s => jsObjSet acc s.name s) []

/-- All lines of `generateProperYaml` applied to the Index page's spec
object (which fixes `openapi: 3.0.0`, always supplies `info` and
`components`, and includes `security` exactly when the global security list
is non-empty). -/
def serializeLines (d : Document) : List String :=
  "openapi: 3.0.0"
  :: infoLines d.apiInfo
  ++ serversLines d.servers
  ++ pathsLines (specPaths d.paths)
  ++ componentsLines (specSchemas d.schemas) (specSchemes d.securitySchemes)
  ++ globalSecurityLines d.globalSecurity

/-- The serialized YAML text (each emitted line ends with a newline). -/
def serializeDocument (d : Document) : String :=
  String.join ((serializeLines d).map (fun l => l ++ "\n"))

/-! ## The scalar-quoting rule of the unused generic helper
(YamlPreview.tsx `generateYaml`, lines 46-53).  This generic
object-to-YAML helper is defined in the component but `generateProperYaml`
is what the preview/export path calls. -/

/-- `value.replace(/"/g, '\\"')`. -/
def escapeDoubleQuotes (s : String) : String :=
  s.replace "\"" "\\\""

/-- `value.includes(':') || value.includes('\n') || value.includes("'")`. -/
def needsQuoting (s : String) : Bool :=
  s.data.contains ':' || s.data.contains '\n' || s.data.contains '\''

/-- The scalar-string emission of the generic helper: double-quote (with
internal double quotes escaped) when the value contains a colon, newline or
single quote, otherwise emit the value bare. -/
def helperScalarLine (spaces key value : String) : String :=
  if needsQuoting value then
    spaces ++ key ++ ": \"" ++ escapeDoubleQuotes value ++ "\""
  else
    spaces ++ key ++ ": " ++ value

/-! ## Path-parameter re-derivation (PathMethodForm.tsx lines 35-61) -/

/-- Scanner for the global matches of `/\{([^}]+)\}/g`: outside a match
candidate (`none` state) a `{` opens one; inside (`some acc`) every
non-`}` character — `{` included, since `[^}]` admits it — accumulates,
and a `}` closes: a non-empty accumulator is one match, an empty one means
the regex failed at that `{` and rescanning resumes (the closing `}`
cannot itself open a match).  A candidate left open at the end of the
input matches nothing, and no later `{` can be closed either. -/
def extractAux : List Char → Option (List Char) → List String
  | [], _ => []
  | c :: rest, none =>
    if c = '{' then extractAux rest (some []) else extractAux rest none
  | c :: rest, some acc =>
    if c = '}' then
      match acc with
      | [] => extractAux rest none
      | a :: as => String.mk (a :: as) :: extractAux rest none
    else extractAux rest (some (acc ++ [c]))

/-- The placeholder contents matched by `currentPath.match(/\{([^}]+)\}/g)`,
in order, one entry per occurrence. -/
def extractPlaceholders (l : List Char) : List String :=
  extractAux l none

/-- The parameter created for a newly discovered path placeholder
(PathMethodForm.tsx lines 45-52). -/
def mkPathParam (paramName : String) : Parameter :=
  { name := paramName
    loc := "path"
    required := true
    description := "ID of the " ++ paramName
    schema := { type := "string" }
    xZiaAgentParamType := some "system" }

/-- The path-parameter auto-detection effect (PathMethodForm.tsx lines
35-61), run after every mutation of the path string: placeholders with no
existing path parameter of the same name are appended as new required path
parameters (one per placeholder occurrence); when at least one is new, the
list is reordered to existing path parameters, then new ones, then
non-path parameters; otherwise the list is left unchanged. -/
def derivePathParams (currentPath : String) (parameters : List Parameter) : List Parameter :=
  let pathParams := extractPlaceholders currentPath.data
  if pathParams = [] then parameters
  else
    let existingPathParams := parameters.filter (fun p => p.loc = "path")
    let newPathParams :=
      (pathParams.filter
        (fun paramName => ¬ existingPathParams.any (fun p => p.name = paramName))).map mkPathParam
    if newPathParams ≠ [] then
      existingPathParams ++ newPathParams ++ parameters.filter (fun p => p.loc ≠ "path")
    else parameters

/-! ## Importer (Index page `importFromYaml`, lines 193-365)

Sections run in source order; each section that can hit a JS TypeError
(property access or `Object.entries` on null/undefined) is modelled in
`Except`/`Option`, `none` meaning the section threw before its state
setter ran — the outer catch then abandons the remaining sections, keeping
whatever the completed sections already set. -/

/-- Merge of two JS objects by spread, right side winning in place. -/
def jsObjMerge (a b : List (String × α)) : List (String × α) :=
  b.foldl (fun acc kv => jsObjSet acc kv.1 kv.2) a

/-- `x?.k` on a possibly-undefined value. -/
def optMemberOpt (o : Option Yaml) (k : String) : Option Yaml :=
  match o with
  | some v => v.memberOpt k
  | none => none

/-- `x || []` for an untyped array-valued field (a truthy non-array is
stored raw in the source, which later length-guards observe as empty). -/
def getArrOr (v : Option Yaml) : List Yaml :=
  match v with
  | some (.arr xs) => xs
  | _ => []

/-- Contact pass-through (`parsedYaml.info.contact || undefined`), narrowed
to the typed Contact fields it is later rendered from. -/
def importContact (c : Yaml) : Contact :=
  { name := getStrOpt (c.member "name")
    email := getStrOpt (c.member "email")
    url := getStrOpt (c.member "url") }

/-- API-info import (Index page lines 213-220). -/
def importApiInfo (info : Yaml) : ApiInfo :=
  { title := getStrOr (info.member "title") ""
    description := getStrOr (info.member "description") ""
    version := getStrOr (info.member "version") "1.0.0"
    contact :=
      match info.member "contact" with
      | some c => if c.truthy then some (importContact c) else none
      | none => none }

/-- `if (parsedYaml?.info) setApiInfo(...)`. -/
def importInfoSection (y : Yaml) (d : Document) : Document :=
  match y.memberOpt "info" with
  | some info => if info.truthy then { d with apiInfo := importApiInfo info } else d
  | none => d

/-- One server element (Index page lines 224-227); property access throws
on a null element. -/
def importServer (server : Yaml) : Except Unit Server := do
  let u ← server.memberE "url"
  let desc ← server.memberE "description"
  pure { url := getStrOr u "", description := getStrOr desc "" }

/-- Servers section (Index page lines 223-229): replaced only when the
source value is an array, otherwise left untouched. -/
def importServersSection (y : Yaml) (d : Document) : Option Document :=
  match y.memberE "servers" with
  | .error _ => none
  | .ok v =>
    match v with
    | some (.arr items) =>
      match items.mapM importServer with
      | .ok servers => some { d with servers := servers }
      | .error _ => none
    | _ => some d

/-- One security scheme (Index page lines 235-255).  `scopes` starts as an
empty object and, for an oauth2 scheme with truthy `flows`, unions every
flow's `scopes` (later flows win on key collision). -/
def importSecurityScheme (name : String) (scheme : Yaml) : Except Unit SecurityScheme := do
  let ty ← scheme.memberE "type"
  let base : SecurityScheme :=
    { name := name
      type := getStrOr ty "http"
      scheme := getStrOpt (scheme.member "scheme")
      bearerFormat := getStrOpt (scheme.member "bearerFormat")
      flows := scheme.member "flows"
      scopes := some [] }
  if ty = some (.str "oauth2") ∧ optTruthy (scheme.member "flows") then
    let flowsVals := ((scheme.member "flows").getD .null).entries.map Prod.snd
    let scopes ← flowsVals.foldlM
      (fun acc flow => do
        let sc ← flow.memberE "scopes"
        match sc with
        | some v =>
          if v.truthy then
            pure (jsObjMerge acc (v.entries.map (fun kv => (kv.1, kv.2.asString))))
          else pure acc
        | none => pure acc)
      ([] : List (String × String))
    pure { base with scopes := some scopes }
  else
    pure base

/-- Security-schemes section (Index page lines 232-258). -/
def importSchemesSection (y : Yaml) (d : Document) : Option Document :=
  match y.memberE "components" with
  | .error _ => none
  | .ok comps =>
    let sv := optMemberOpt comps "securitySchemes"
    if optTruthy sv then
      match (sv.getD .null).entries.mapM (fun kv => importSecurityScheme kv.1 kv.2) with
      | .ok schemes => some { d with securitySchemes := schemes }
      | .error _ => none
    else some d

/-- One schema property (Index page lines 273-279). -/
def importSchemaProperty (prop : Yaml) : Except Unit SchemaProperty := do
  let ty ← prop.memberE "type"
  pure { type := getStrOr ty "string"
         description := getStrOr (prop.member "description") ""
         xZiaAgentParamType := getStrOpt (prop.member "x-zia-agent-param-type") }

/-- One schema entry (Index page lines 264-283): only entries with
`type === 'object'` and truthy `properties` are imported; others yield
`none` and are dropped. -/
def importSchemaEntry (name : String) (schema : Yaml) : Except Unit (Option Schema) := do
  let ty ← schema.memberE "type"
  if ty = some (.str "object") ∧ optTruthy (schema.member "properties") then
    let props ← ((schema.member "properties").getD .null).entries.mapM
      (fun kv => do
        let p ← importSchemaProperty kv.2
        pure (kv.1, p))
    pure (some { name := name
                 type := "object"
                 properties := props
                 required := getStrListOr (schema.member "required") })
  else pure none

/-- Schemas section (Index page lines 261-286). -/
def importSchemasSection (y : Yaml) (d : Document) : Option Document :=
  match y.memberE "components" with
  | .error _ => none
  | .ok comps =>
    let sv := optMemberOpt comps "schemas"
    if optTruthy sv then
      match (sv.getD .null).entries.mapM (fun kv => importSchemaEntry kv.1 kv.2) with
      | .ok maybeSchemas => some { d with schemas := maybeSchemas.reduceOption }
      | .error _ => none
    else some d

/-- One operation parameter (Index page lines 311-318).  The raw `schema`
pass-through is narrowed to its `type` field (absent type modelled as the
empty string). -/
def importParameter (param : Yaml) : Except Unit Parameter := do
  let n ← param.memberE "name"
  pure { name := getStrOr n ""
         loc := getStrOr (param.member "in") "query"
         required := optTruthy (param.member "required")
         description := getStrOr (param.member "description") ""
         schema :=
           (match param.member "schema" with
            | some s => if s.truthy then { type := getStrOr (s.member "type") "" }
                        else { type := "string" }
            | none => { type := "string" })
         xZiaAgentParamType := getStrOpt (param.member "x-zia-agent-param-type") }

/-- One response entry (Index page lines 335-341). -/
def importResponse (statusCode : String) (response : Yaml) : Except Unit Response := do
  let desc ← response.memberE "description"
  pure { statusCode := statusCode
         description := getStrOr desc ""
         content := response.member "content" }

/-- One operation (Index page lines 299-344). -/
def importOperation (operation : Yaml) : Except Unit Operation := do
  let summary ← operation.memberE "summary"
  let params ←
    match operation.member "parameters" with
    | some (.arr ps) => ps.mapM importParameter
    | _ => pure []
  let responses ←
    if optTruthy (operation.member "responses") then
      ((operation.member "responses").getD .null).entries.mapM
        (fun kv => importResponse kv.1 kv.2)
    else pure []
  pure { summary := getStrOr summary ""
         description := getStrOr (operation.member "description") ""
         operationId := getStrOr (operation.member "operationId") ""
         tags := getStrListOr (operation.member "tags")
         security := getArrOr (operation.member "security")
         parameters := params
         requestBody :=
           (match operation.member "requestBody" with
            | some rb =>
              if rb.truthy then
                some { required := optTruthy (rb.member "required")
                       schema := jsOr
                         (optMemberOpt (optMemberOpt (rb.member "content") "application/json") "schema")
                         (.obj [("type", .str "object")]) }
              else none
            | none => none)
         responses := responses }

/-- One path entry (Index page lines 292-348); `Object.entries(methods)`
throws when the methods value is null. -/
def importPathEntry (pathUrl : String) (methods : Yaml) : Except Unit Path := do
  let entries ← methods.entriesE
  let ops ← entries.mapM
    (fun kv => do
      let op ← importOperation kv.2
      pure (kv.1, op))
  pure { path := pathUrl, methods := ops }

/-- Paths section (Index page lines 289-350). -/
def importPathsSection (y : Yaml) (d : Document) : Option Document :=
  match y.memberE "paths" with
  | .error _ => none
  | .ok pv =>
    if optTruthy pv then
      match (pv.getD .null).entries.mapM (fun kv => importPathEntry kv.1 kv.2) with
      | .ok paths => some { d with paths := paths }
      | .error _ => none
    else some d

/-- Global-security section (Index page lines 352-354): replaced only when
the source value is an array. -/
def importSecuritySection (y : Yaml) (d : Document) : Option Document :=
  match y.memberE "security" with
  | .error _ => none
  | .ok v =>
    match v with
    | some (.arr xs) => some { d with globalSecurity := xs }
    | _ => some d

/-- Run the throwing sections in order: a section that throws (yields
`none`) abandons the rest, keeping the state already set (the outer
catch). -/
def runSections : List (Document → Option Document) → Document → Document
  | [], d => d
  | f :: fs, d =>
    match f d with
    | none => d
    | some d2 => runSections fs d2

/-- The section-by-section body of `importFromYaml`: the info section
(which cannot throw) followed by the five throwing sections in source
order. -/
def importSections (y : Yaml) (d : Document) : Document :=
  runSections
    [importServersSection y, importSchemesSection y, importSchemasSection y,
     importPathsSection y, importSecuritySection y]
    (importInfoSection y d)

/-- `importFromYaml` (Index page, lines 193-365).  The text input is
abstracted as whether it trims to empty (the early-return guard) together
with the js-yaml parse outcome, `none` meaning the parser threw.  A parse
throw is swallowed and an empty object used instead; every later exception
is caught by the outer handler, so the function always returns a
Document. -/
def importFromYaml (inputBlank : Bool) (parsed : Option Yaml) (d : Document) : Document :=
  if inputBlank then d
  else
    let parsedYaml :=
      match parsed with
      | none => Yaml.obj []
      | some v => v
    importSections parsedYaml d

/-! ## Validation pipeline (yamlValidator.ts `validateYaml`, lines 125-259)

The external js-yaml parser and the yaml-validator schema check are
abstracted as oracle inputs: the emptiness of the trimmed content, the
syntax-parse outcome, and the schema-validation outcome (the warnings its
`onWarning` callback pushed, or the message it threw with together with
the position/path its message pattern-matches to). -/

/-- Severity and type are kept as the literal strings of the source. -/
structure ValidationError where
  line : Nat
  column : Nat
  message : String
  severity : String
  type : String
  suggestion : Option String := none
  details : Option String := none
  source : Option String := none
deriving Repr, DecidableEq

structure ValidationResult where
  isValid : Bool
  error : Option String := none
  errors : List ValidationError
  warnings : List ValidationError
  infos : List ValidationError
  lineNumber : Option Nat := none
  column : Option Nat := none
  details : Option String := none
  severity : Option String := none
  path : Option (List String) := none
  suggestion : Option String := none
deriving Repr, DecidableEq

/-- A js-yaml parse exception: its optional mark and its message. -/
structure YamlSyntaxError where
  markLine : Option Nat
  markColumn : Option Nat
  message : String
deriving Repr, DecidableEq

/-- A throw from the schema validator: the message together with the
`line N, column M` and `at path "X"` information extracted from it by the
source's pattern matches (abstracted here as oracle fields). -/
structure SchemaThrow where
  message : String
  extractedLine : Option Nat
  extractedColumn : Option Nat
  extractedPath : Option String
deriving Repr, DecidableEq

/-- Outcome of `validator.validate`: it either completes (having pushed
the given warnings through `onWarning`) or throws after pushing them. -/
inductive SchemaOutcome where
  | completed (warnings : List ValidationError)
  | threw (warnings : List ValidationError) (t : SchemaThrow)
deriving Repr, DecidableEq

/-- Whether `pat` occurs at the start of `s`. -/
def leadsWith : List Char → List Char → Bool
  | _, [] => true
  | [], _ :: _ => false
  | a :: as, b :: bs => a = b && leadsWith as bs

/-- Whether `pat` occurs contiguously anywhere in `s`. -/
def hasInfix (s pat : List Char) : Bool :=
  leadsWith s pat ||
    match s with
    | [] => false
    | _ :: rest => hasInfix rest pat

/-- `s.includes(pat)`. -/
def strIncludes (s pat : String) : Bool :=
  hasInfix s.data pat.data

/-- Suggestion table for syntax errors (yamlValidator.ts lines 262-282). -/
def getSyntaxErrorSuggestion (error : String) : String :=
  if strIncludes error "end of the stream" then "Check for missing closing brackets or quotes"
  else if strIncludes error "duplicate key" then "Remove or rename the duplicate property"
  else if strIncludes error "bad indentation" then "Fix indentation - use 2 spaces per level"
  else if strIncludes error "tab characters" then "Replace tabs with spaces for indentation"
  else if strIncludes error "flow map" then
    "Check your YAML structure - make sure objects are properly formatted"
  else if strIncludes error "trailing comma" then
    "Remove trailing comma - YAML does not support trailing commas"
  else "Check your YAML syntax against the OpenAPI specification"

/-- Suggestion table for schema errors (yamlValidator.ts lines 285-305). -/
def getSchemaErrorSuggestion (error : String) : String :=
  if strIncludes error "required property" then "Add the missing required property"
  else if strIncludes error "invalid type" then
    "Correct the property type according to the OpenAPI schema"
  else if strIncludes error "paths" then "Every API needs at least one path - add an endpoint"
  else if strIncludes error "info" then "Add API information including title and version"
  else if strIncludes error "additionalProperty" then
    "Remove unknown property - it is not defined in the schema"
  else if strIncludes error "enum" then "Use one of the allowed values for this field"
  else "Validate your schema against the OpenAPI specification"

/-- `validateYaml` (yamlValidator.ts lines 125-259), one return path per
match arm: empty content, syntax failure, schema-validator throw,
warnings-only success, and full success. -/
def validateYaml (contentBlank : Bool) (syntaxOutcome : Option YamlSyntaxError)
    (schemaOutcome : SchemaOutcome) : ValidationResult :=
  if contentBlank then
    let error : ValidationError :=
      { line := 0, column := 0, message := "YAML content cannot be empty"
        severity := "error", type := "syntax"
        suggestion := some "Add some YAML content to get started" }
    { isValid := false
      error := some error.message
      errors := [error], warnings := [], infos := []
      severity := some "error"
      suggestion := error.suggestion }
  else
    match syntaxOutcome with
    | some yamlError =>
      let validationError : ValidationError :=
        { line := yamlError.markLine.getD 0
          column := yamlError.markColumn.getD 0
          message := "YAML Syntax Error"
          severity := "error", type := "syntax"
          details := some yamlError.message
          suggestion := some (getSyntaxErrorSuggestion yamlError.message) }
      { isValid := false
        errors := [validationError], warnings := [], infos := []
        error := some validationError.message
        details := some yamlError.message
        lineNumber := some validationError.line
        column := some validationError.column
        severity := some "error"
        suggestion := validationError.suggestion }
    | none =>
      match schemaOutcome with
      | .completed warnings =>
        if warnings.length > 0 then
          { isValid := true
            errors := [], warnings := warnings, infos := []
            severity := some "warning"
            suggestion := some "Your YAML is valid but could be improved" }
        else
          { isValid := true
            errors := [], warnings := warnings
            infos := [{ line := 0, column := 0, message := "YAML is valid"
                        severity := "info", type := "format" }]
            severity := some "info" }
      | .threw warnings t =>
        let validationError : ValidationError :=
          { line := t.extractedLine.getD 0
            column := t.extractedColumn.getD 0
            message := "OpenAPI Schema Validation Error"
            severity := "error", type := "schema"
            details := some t.message
            source := t.extractedPath
            suggestion := some (getSchemaErrorSuggestion t.message) }
        { isValid := false
          errors := [validationError], warnings := warnings, infos := []
          error := some validationError.message
          lineNumber := some validationError.line
          column := some validationError.column
          details := validationError.details
          severity := some "error"
          path := t.extractedPath.map (fun s => s.splitOn ".")
          suggestion := validationError.suggestion }

/-! ## General helper lemmas -/

theorem data_append (a b : String) : (a ++ b).data = a.data ++ b.data := rfl

theorem ne_of_get (a b : String) (i : Nat) (h : a.data.get? i ≠ b.data.get? i) : a ≠ b :=
  fun e => h (by rw [e])

theorem get0_append (l1 l2 : List Char) (h : l1 ≠ []) : (l1 ++ l2).get? 0 = l1.get? 0 := by
  cases l1 with
  | nil => exact absurd rfl h
  | cons c cs => rfl

/-- A line with a constant prefix not starting with `s` is never the
top-level `security:` line. -/
theorem ne_sec_append (p x : String) (hp : p.data ≠ []) (hc : p.data.get? 0 ≠ some 's') :
    p ++ x ≠ "security:" := by
  apply ne_of_get _ _ 0
  rw [data_append, get0_append _ _ hp]
  exact fun hEq => hc (hEq.trans (by decide))

theorem memberE_ok (v : Yaml) (k : String) (h : v ≠ .null) : v.memberE k = .ok (v.member k) := by
  cases v <;> first | exact absurd rfl h | rfl

theorem entriesE_ok (v : Yaml) (h : v ≠ .null) : v.entriesE = .ok v.entries := by
  cases v <;> first | exact absurd rfl h | rfl

/-! ## Claim theorems -/

/-- Claim C2: on every return path of `validateYaml` (empty input, syntax
failure, schema-validator throw, warnings-only, full success), `isValid`
is true exactly when the `errors` list of the result is empty. -/
theorem validateYaml_isValid_iff_no_errors (contentBlank : Bool)
    (syntaxOutcome : Option YamlSyntaxError) (schemaOutcome : SchemaOutcome) :
    ((validateYaml contentBlank syntaxOutcome schemaOutcome).isValid = true) ↔
      (validateYaml contentBlank syntaxOutcome schemaOutcome).errors = [] := by
  unfold validateYaml
  cases contentBlank with
  | true => simp
  | false =>
    cases syntaxOutcome with
    | some e => simp
    | none =>
      cases schemaOutcome with
      | completed ws => by_cases hw : ws.length > 0 <;> simp [hw]
      | threw ws t => simp

/-- Claim C9: `updateGlobalSecurity` is a pure function of the scheme
list: an oauth2 scheme with a scopes object maps to a one-key object
holding its scope names, every other scheme to a one-key object holding an
empty array; in particular an http `bearerAuth` scheme yields
`[⟨bearerAuth, []⟩]` and an oauth2 scheme with scope `read` yields
`[⟨oauth2, [read]⟩]`. -/
theorem updateGlobalSecurity_characterization :
    (∀ (schemes : List SecurityScheme) (i : Nat) (scheme : SecurityScheme),
      schemes.get? i = some scheme →
      (updateGlobalSecurity schemes).get? i = some
        (if scheme.type = "oauth2" ∧ scheme.scopes.isSome then
          Yaml.obj [(scheme.name, Yaml.arr ((scheme.scopes.getD []).map (fun kv => Yaml.str kv.1)))]
        else Yaml.obj [(scheme.name, Yaml.arr [])]))
    ∧ (∀ schemes : List SecurityScheme,
        (updateGlobalSecurity schemes).length = schemes.length)
    ∧ updateGlobalSecurity [{ name := "bearerAuth", type := "http" }] =
        [Yaml.obj [("bearerAuth", Yaml.arr [])]]
    ∧ updateGlobalSecurity
        [{ name := "oauth2", type := "oauth2", scopes := some [("read", "d")] }] =
        [Yaml.obj [("oauth2", Yaml.arr [Yaml.str "read"])]] := by
  refine ⟨?_, ?_, by decide, by decide⟩
  · intro schemes i scheme hget
    unfold updateGlobalSecurity
    rw [List.get?_map, hget]
    cases hsc : scheme.scopes with
    | some scopes =>
      by_cases ht : scheme.type = "oauth2" <;> simp [ht, hsc]
    | none =>
      by_cases ht : scheme.type = "oauth2" <;> simp [ht, hsc]
  · intro schemes
    unfold updateGlobalSecurity
    exact List.length_map _ _

/-- Claim C10: an imported parameter whose source object lacks a truthy
`required` field gets `required = false` — including path-located
parameters, so an import can produce a path parameter with
`required = false` (shown end-to-end on a one-operation document). -/
theorem importFromYaml_required_defaults_false :
    (∀ param : Yaml, param ≠ Yaml.null → optTruthy (param.member "required") = false →
      ∃ p : Parameter, importParameter param = Except.ok p ∧ p.required = false)
    ∧ (importFromYaml false
        (some (Yaml.obj [("paths", Yaml.obj [("/pets/{petId}", Yaml.obj [("get",
          Yaml.obj [("parameters", Yaml.arr [Yaml.obj
            [("name", Yaml.str "petId"), ("in", Yaml.str "path")]])])])])]))
        emptyDocument).paths =
      [{ path := "/pets/{petId}"
         methods := [("get",
           { summary := "", description := "", operationId := "", tags := []
             security := [], requestBody := none, responses := []
             parameters := [{ name := "petId", loc := "path", required := false
                              description := "", schema := { type := "string" }
                              xZiaAgentParamType := none }] })] }] := by
  constructor
  · intro param hn hr
    have hb := memberE_ok param "name" hn
    refine ⟨{ name := getStrOr (param.member "name") ""
              loc := getStrOr (param.member "in") "query"
              required := optTruthy (param.member "required")
              description := getStrOr (param.member "description") ""
              schema :=
                (match param.member "schema" with
                 | some s => if s.truthy then { type := getStrOr (s.member "type") "" }
                             else { type := "string" }
                 | none => { type := "string" })
              xZiaAgentParamType := getStrOpt (param.member "x-zia-agent-param-type") },
            ?_, hr⟩
    unfold importParameter
    rw [hb]
    rfl
  · decide

/-- Claim C7: whenever an operation has a request body, the serialized
operation contains the literal vendor-marker line
`x-zia-agent-param-type: dynamic`, and the JSON schema is forced to either
a `$ref` line or the literal `type: object` line. -/
theorem requestBody_forces_schema_and_marker (method : String) (op : Operation)
    (rb : RequestBody) (h : op.requestBody = some rb) :
    "            x-zia-agent-param-type: dynamic" ∈ operationLines method op ∧
      ("              type: object" ∈ operationLines method op ∨
        ∃ r : String, ("              $ref: '" ++ (r ++ "'")) ∈ operationLines method op) := by
  have hsub : ∀ l ∈ requestBodyLines rb, l ∈ operationLines method op := by
    intro l hl
    simp only [operationLines, h, List.mem_cons, List.mem_append]
    tauto
  constructor
  · apply hsub
    unfold requestBodyLines
    by_cases hr : optTruthy (rb.schema.memberOpt "$ref") <;>
      by_cases hq : rb.required <;> simp [hr, hq]
  · by_cases hr : optTruthy (rb.schema.memberOpt "$ref")
    · right
      refine ⟨((rb.schema.memberOpt "$ref").getD .null).asString, hsub _ ?_⟩
      unfold requestBodyLines
      by_cases hq : rb.required <;> simp [hr, hq]
    · left
      apply hsub
      unfold requestBodyLines
      by_cases hq : rb.required <;> simp [hr, hq]

/-- Witness for C7 at a concrete operation with an inline-schema request
body. -/
theorem requestBody_forces_schema_and_marker_witness :
    "            x-zia-agent-param-type: dynamic" ∈ operationLines "post"
      { summary := "s", description := "", operationId := "", tags := []
        security := [], parameters := [], responses := []
        requestBody := some { required := true, schema := Yaml.obj [] } } ∧
      ("              type: object" ∈ operationLines "post"
        { summary := "s", description := "", operationId := "", tags := []
          security := [], parameters := [], responses := []
          requestBody := some { required := true, schema := Yaml.obj [] } } ∨
        ∃ r : String, ("              $ref: '" ++ (r ++ "'")) ∈ operationLines "post"
          { summary := "s", description := "", operationId := "", tags := []
            security := [], parameters := [], responses := []
            requestBody := some { required := true, schema := Yaml.obj [] } }) :=
  requestBody_forces_schema_and_marker "post" _ _ rfl

/-- Witness for C9 at the oauth2 example of the claim. -/
theorem updateGlobalSecurity_characterization_witness :
    (updateGlobalSecurity [{ name := "a", type := "oauth2", scopes := some [("s", "d")] }]).get? 0 =
      some (Yaml.obj [("a", Yaml.arr [Yaml.str "s"])]) := by
  have h := updateGlobalSecurity_characterization.1
    [{ name := "a", type := "oauth2", scopes := some [("s", "d")] }] 0
    { name := "a", type := "oauth2", scopes := some [("s", "d")] } rfl
  rw [h]
  decide

/-- Witness for C10 at a concrete path-located parameter without a
`required` key. -/
theorem importFromYaml_required_defaults_false_witness :
    ∃ p : Parameter,
      importParameter (Yaml.obj [("name", Yaml.str "x"), ("in", Yaml.str "path")]) =
        Except.ok p ∧ p.required = false :=
  importFromYaml_required_defaults_false.1 _ (by decide) (by decide)

/-! ### Import section lemmas (for C1) -/

theorem memberOpt_eq_member (y : Yaml) (k : String) (h : y ≠ .null) :
    y.memberOpt k = y.member k := by
  cases y <;> first | exact absurd rfl h | rfl

theorem runSections_preserve (P : Document → Prop)
    (fs : List (Document → Option Document))
    (hf : ∀ f ∈ fs, ∀ a b, f a = some b → P a → P b)
    (d : Document) (hd : P d) : P (runSections fs d) := by
  induction fs generalizing d with
  | nil => simpa [runSections] using hd
  | cons f fs ih =>
    cases hfd : f d with
    | none => simpa [runSections, hfd] using hd
    | some d2 =>
      simp only [runSections, hfd]
      exact ih (fun g hg => hf g (List.mem_cons_of_mem _ hg)) d2
        (hf f (List.mem_cons_self _ _) d d2 hfd hd)

theorem importInfoSection_fields (y : Yaml) (d : Document) :
    (importInfoSection y d).servers = d.servers ∧
    (importInfoSection y d).paths = d.paths ∧
    (importInfoSection y d).schemas = d.schemas ∧
    (importInfoSection y d).securitySchemes = d.securitySchemes ∧
    (importInfoSection y d).globalSecurity = d.globalSecurity ∧
    (y.memberOpt "info" = none → importInfoSection y d = d) := by
  unfold importInfoSection
  cases hv : y.memberOpt "info" with
  | none => simp
  | some info => by_cases ht : info.truthy <;> simp [ht]

theorem importServersSection_fields (y : Yaml) (a b : Document)
    (h : importServersSection y a = some b) :
    b.apiInfo = a.apiInfo ∧ b.paths = a.paths ∧ b.schemas = a.schemas ∧
    b.securitySchemes = a.securitySchemes ∧ b.globalSecurity = a.globalSecurity ∧
    (y.memberOpt "servers" = none → b.servers = a.servers) := by
  by_cases hy : y = Yaml.null
  · subst hy
    exact absurd h (by simp [importServersSection, Yaml.memberE])
  · have hrw : importServersSection y a =
        (match y.member "servers" with
         | some (.arr items) =>
           match items.mapM importServer with
           | .ok servers => some { a with servers := servers }
           | .error _ => none
         | _ => some a) := by
      unfold importServersSection
      rw [memberE_ok y _ hy]
    rw [hrw] at h
    cases hv : y.member "servers" with
    | none =>
      rw [hv] at h
      have h2 : some a = some b := h
      cases h2
      exact ⟨rfl, rfl, rfl, rfl, rfl, fun _ => rfl⟩
    | some v =>
      rw [hv] at h
      cases v with
      | arr items =>
        have h3 : (match items.mapM importServer with
            | .ok servers => some { a with servers := servers }
            | .error _ => none) = some b := h
        cases hm : items.mapM importServer with
        | ok servers =>
          rw [hm] at h3
          have h2 : some { a with servers := servers } = some b := h3
          cases h2
          refine ⟨rfl, rfl, rfl, rfl, rfl, ?_⟩
          intro habs
          rw [memberOpt_eq_member _ _ hy, hv] at habs
          cases habs
        | error e =>
          rw [hm] at h3
          have h2 : (none : Option Document) = some b := h3
          cases h2
      | null =>
        have h2 : some a = some b := h
        cases h2
        exact ⟨rfl, rfl, rfl, rfl, rfl, fun _ => rfl⟩
      | bool x =>
        have h2 : some a = some b := h
        cases h2
        exact ⟨rfl, rfl, rfl, rfl, rfl, fun _ => rfl⟩
      | num x =>
        have h2 : some a = some b := h
        cases h2
        exact ⟨rfl, rfl, rfl, rfl, rfl, fun _ => rfl⟩
      | str x =>
        have h2 : some a = some b := h
        cases h2
        exact ⟨rfl, rfl, rfl, rfl, rfl, fun _ => rfl⟩
      | obj x =>
        have h2 : some a = some b := h
        cases h2
        exact ⟨rfl, rfl, rfl, rfl, rfl, fun _ => rfl⟩

theorem importSchemesSection_fields (y : Yaml) (a b : Document)
    (h : importSchemesSection y a = some b) :
    b.apiInfo = a.apiInfo ∧ b.servers = a.servers ∧ b.paths = a.paths ∧
    b.schemas = a.schemas ∧ b.globalSecurity = a.globalSecurity ∧
    (optMemberOpt (y.memberOpt "components") "securitySchemes" = none →
      b.securitySchemes = a.securitySchemes) := by
  by_cases hy : y = Yaml.null
  · subst hy
    exact absurd h (by simp [importSchemesSection, Yaml.memberE])
  · have hrw : importSchemesSection y a =
        (if optTruthy (optMemberOpt (y.member "components") "securitySchemes") then
          match ((optMemberOpt (y.member "components") "securitySchemes").getD .null).entries.mapM
              (fun kv => importSecurityScheme kv.1 kv.2) with
          | .ok schemes => some { a with securitySchemes := schemes }
          | .error _ => none
        else some a) := by
      unfold importSchemesSection
      rw [memberE_ok y _ hy]
    rw [hrw] at h
    cases ht : optTruthy (optMemberOpt (y.member "components") "securitySchemes") with
    | false =>
      rw [ht] at h
      have h2 : some a = some b := h
      cases h2
      exact ⟨rfl, rfl, rfl, rfl, rfl, fun _ => rfl⟩
    | true =>
      rw [ht] at h
      have h3 : (match ((optMemberOpt (y.member "components") "securitySchemes").getD .null).entries.mapM
            (fun kv => importSecurityScheme kv.1 kv.2) with
          | .ok schemes => some { a with securitySchemes := schemes }
          | .error _ => none) = some b := h
      cases hm : (((optMemberOpt (y.member "components") "securitySchemes").getD .null).entries.mapM
          (fun kv => importSecurityScheme kv.1 kv.2)) with
      | ok schemes =>
        rw [hm] at h3
        have h2 : some { a with securitySchemes := schemes } = some b := h3
        cases h2
        refine ⟨rfl, rfl, rfl, rfl, rfl, ?_⟩
        intro habs
        rw [memberOpt_eq_member _ _ hy] at habs
        rw [habs] at ht
        cases ht
      | error e =>
        rw [hm] at h3
        have h2 : (none : Option Document) = some b := h3
        cases h2

theorem importSchemasSection_fields (y : Yaml) (a b : Document)
    (h : importSchemasSection y a = some b) :
    b.apiInfo = a.apiInfo ∧ b.servers = a.servers ∧ b.paths = a.paths ∧
    b.securitySchemes = a.securitySchemes ∧ b.globalSecurity = a.globalSecurity ∧
    (optMemberOpt (y.memberOpt "components") "schemas" = none →
      b.schemas = a.schemas) := by
  by_cases hy : y = Yaml.null
  · subst hy
    exact absurd h (by simp [importSchemasSection, Yaml.memberE])
  · have hrw : importSchemasSection y a =
        (if optTruthy (optMemberOpt (y.member "components") "schemas") then
          match ((optMemberOpt (y.member "components") "schemas").getD .null).entries.mapM
              (fun kv => importSchemaEntry kv.1 kv.2) with
          | .ok maybeSchemas => some { a with schemas := maybeSchemas.reduceOption }
          | .error _ => none
        else some a) := by
      unfold importSchemasSection
      rw [memberE_ok y _ hy]
    rw [hrw] at h
    cases ht : optTruthy (optMemberOpt (y.member "components") "schemas") with
    | false =>
      rw [ht] at h
      have h2 : some a = some b := h
      cases h2
      exact ⟨rfl, rfl, rfl, rfl, rfl, fun _ => rfl⟩
    | true =>
      rw [ht] at h
      have h3 : (match ((optMemberOpt (y.member "components") "schemas").getD .null).entries.mapM
            (fun kv => importSchemaEntry kv.1 kv.2) with
          | .ok maybeSchemas => some { a with schemas := maybeSchemas.reduceOption }
          | .error _ => none) = some b := h
      cases hm : (((optMemberOpt (y.member "components") "schemas").getD .null).entries.mapM
          (fun kv => importSchemaEntry kv.1 kv.2)) with
      | ok maybeSchemas =>
        rw [hm] at h3
        have h2 : some { a with schemas := maybeSchemas.reduceOption } = some b := h3
        cases h2
        refine ⟨rfl, rfl, rfl, rfl, rfl, ?_⟩
        intro habs
        rw [memberOpt_eq_member _ _ hy] at habs
        rw [habs] at ht
        cases ht
      | error e =>
        rw [hm] at h3
        have h2 : (none : Option Document) = some b := h3
        cases h2

theorem importPathsSection_fields (y : Yaml) (a b : Document)
    (h : importPathsSection y a = some b) :
    b.apiInfo = a.apiInfo ∧ b.servers = a.servers ∧ b.schemas = a.schemas ∧
    b.securitySchemes = a.securitySchemes ∧ b.globalSecurity = a.globalSecurity ∧
    (y.memberOpt "paths" = none → b.paths = a.paths) := by
  by_cases hy : y = Yaml.null
  · subst hy
    exact absurd h (by simp [importPathsSection, Yaml.memberE])
  · have hrw : importPathsSection y a =
        (if optTruthy (y.member "paths") then
          match ((y.member "paths").getD .null).entries.mapM
              (fun kv => importPathEntry kv.1 kv.2) with
          | .ok paths => some { a with paths := paths }
          | .error _ => none
        else some a) := by
      unfold importPathsSection
      rw [memberE_ok y _ hy]
    rw [hrw] at h
    cases ht : optTruthy (y.member "paths") with
    | false =>
      rw [ht] at h
      have h2 : some a = some b := h
      cases h2
      exact ⟨rfl, rfl, rfl, rfl, rfl, fun _ => rfl⟩
    | true =>
      rw [ht] at h
      have h3 : (match ((y.member "paths").getD .null).entries.mapM
            (fun kv => importPathEntry kv.1 kv.2) with
          | .ok paths => some { a with paths := paths }
          | .error _ => none) = some b := h
      cases hm : (((y.member "paths").getD .null).entries.mapM
          (fun kv => importPathEntry kv.1 kv.2)) with
      | ok paths =>
        rw [hm] at h3
        have h2 : some { a with paths := paths } = some b := h3
        cases h2
        refine ⟨rfl, rfl, rfl, rfl, rfl, ?_⟩
        intro habs
        rw [memberOpt_eq_member _ _ hy] at habs
        rw [habs] at ht
        cases ht
      | error e =>
        rw [hm] at h3
        have h2 : (none : Option Document) = some b := h3
        cases h2

theorem importSecuritySection_fields (y : Yaml) (a b : Document)
    (h : importSecuritySection y a = some b) :
    b.apiInfo = a.apiInfo ∧ b.servers = a.servers ∧ b.paths = a.paths ∧
    b.schemas = a.schemas ∧ b.securitySchemes = a.securitySchemes ∧
    (y.memberOpt "security" = none → b.globalSecurity = a.globalSecurity) := by
  by_cases hy : y = Yaml.null
  · subst hy
    exact absurd h (by simp [importSecuritySection, Yaml.memberE])
  · have hrw : importSecuritySection y a =
        (match y.member "security" with
         | some (.arr items) => some { a with globalSecurity := items }
         | _ => some a) := by
      unfold importSecuritySection
      rw [memberE_ok y _ hy]
    rw [hrw] at h
    cases hv : y.member "security" with
    | none =>
      rw [hv] at h
      have h2 : some a = some b := h
      cases h2
      exact ⟨rfl, rfl, rfl, rfl, rfl, fun _ => rfl⟩
    | some v =>
      rw [hv] at h
      cases v with
      | arr items =>
        have h2 : some { a with globalSecurity := items } = some b := h
        cases h2
        refine ⟨rfl, rfl, rfl, rfl, rfl, ?_⟩
        intro habs
        rw [memberOpt_eq_member _ _ hy, hv] at habs
        cases habs
      | null =>
        have h2 : some a = some b := h
        cases h2
        exact ⟨rfl, rfl, rfl, rfl, rfl, fun _ => rfl⟩
      | bool x =>
        have h2 : some a = some b := h
        cases h2
        exact ⟨rfl, rfl, rfl, rfl, rfl, fun _ => rfl⟩
      | num x =>
        have h2 : some a = some b := h
        cases h2
        exact ⟨rfl, rfl, rfl, rfl, rfl, fun _ => rfl⟩
      | str x =>
        have h2 : some a = some b := h
        cases h2
        exact ⟨rfl, rfl, rfl, rfl, rfl, fun _ => rfl⟩
      | obj x =>
        have h2 : some a = some b := h
        cases h2
        exact ⟨rfl, rfl, rfl, rfl, rfl, fun _ => rfl⟩

/-- Claim C1: `importFromYaml` never raises (it is a total function into
documents); blank input leaves the document unchanged; a parse failure
behaves exactly like importing an empty object; and every Document section
whose corresponding key is absent from the parsed source is left
unchanged — import is a partial merge, not a replace. -/
theorem importFromYaml_partial_merge :
    (∀ (parsed : Option Yaml) (d : Document), importFromYaml true parsed d = d)
    ∧ (∀ d : Document, importFromYaml false none d = importFromYaml false (some (Yaml.obj [])) d)
    ∧ (∀ (y : Yaml) (d : Document),
        (y.memberOpt "info" = none → (importFromYaml false (some y) d).apiInfo = d.apiInfo)
      ∧ (y.memberOpt "servers" = none → (importFromYaml false (some y) d).servers = d.servers)
      ∧ (optMemberOpt (y.memberOpt "components") "securitySchemes" = none →
          (importFromYaml false (some y) d).securitySchemes = d.securitySchemes)
      ∧ (optMemberOpt (y.memberOpt "components") "schemas" = none →
          (importFromYaml false (some y) d).schemas = d.schemas)
      ∧ (y.memberOpt "paths" = none → (importFromYaml false (some y) d).paths = d.paths)
      ∧ (y.memberOpt "security" = none →
          (importFromYaml false (some y) d).globalSecurity = d.globalSecurity)) := by
  refine ⟨fun parsed d => rfl, fun d => rfl, fun y d => ?_⟩
  have hrun : importFromYaml false (some y) d =
      runSections
        [importServersSection y, importSchemesSection y, importSchemasSection y,
         importPathsSection y, importSecuritySection y]
        (importInfoSection y d) := rfl
  have hinfo := importInfoSection_fields y d
  refine ⟨?_, ?_, ?_, ?_, ?_, ?_⟩
  · intro habs
    rw [hrun]
    have h0 : (importInfoSection y d).apiInfo = d.apiInfo := by rw [hinfo.2.2.2.2.2 habs]
    refine runSections_preserve (fun x => x.apiInfo = d.apiInfo) _ ?_ _ h0
    intro f hf a b hab hP
    simp only [List.mem_cons, List.mem_singleton] at hf
    rcases hf with rfl | rfl | rfl | rfl | rfl | hf
    · rw [(importServersSection_fields y a b hab).1, hP]
    · rw [(importSchemesSection_fields y a b hab).1, hP]
    · rw [(importSchemasSection_fields y a b hab).1, hP]
    · rw [(importPathsSection_fields y a b hab).1, hP]
    · rw [(importSecuritySection_fields y a b hab).1, hP]
    · cases hf
  · intro habs
    rw [hrun]
    refine runSections_preserve (fun x => x.servers = d.servers) _ ?_ _ hinfo.1
    intro f hf a b hab hP
    simp only [List.mem_cons, List.mem_singleton] at hf
    rcases hf with rfl | rfl | rfl | rfl | rfl | hf
    · rw [(importServersSection_fields y a b hab).2.2.2.2.2 habs, hP]
    · rw [(importSchemesSection_fields y a b hab).2.1, hP]
    · rw [(importSchemasSection_fields y a b hab).2.1, hP]
    · rw [(importPathsSection_fields y a b hab).2.1, hP]
    · rw [(importSecuritySection_fields y a b hab).2.1, hP]
    · cases hf
  · intro habs
    rw [hrun]
    refine runSections_preserve (fun x => x.securitySchemes = d.securitySchemes) _ ?_ _
      hinfo.2.2.2.1
    intro f hf a b hab hP
    simp only [List.mem_cons, List.mem_singleton] at hf
    rcases hf with rfl | rfl | rfl | rfl | rfl | hf
    · rw [(importServersSection_fields y a b hab).2.2.2.1, hP]
    · rw [(importSchemesSection_fields y a b hab).2.2.2.2.2 habs, hP]
    · rw [(importSchemasSection_fields y a b hab).2.2.2.1, hP]
    · rw [(importPathsSection_fields y a b hab).2.2.2.1, hP]
    · rw [(importSecuritySection_fields y a b hab).2.2.2.2.1, hP]
    · cases hf
  · intro habs
    rw [hrun]
    refine runSections_preserve (fun x => x.schemas = d.schemas) _ ?_ _ hinfo.2.2.1
    intro f hf a b hab hP
    simp only [List.mem_cons, List.mem_singleton] at hf
    rcases hf with rfl | rfl | rfl | rfl | rfl | hf
    · rw [(importServersSection_fields y a b hab).2.2.1, hP]
    · rw [(importSchemesSection_fields y a b hab).2.2.2.1, hP]
    · rw [(importSchemasSection_fields y a b hab).2.2.2.2.2 habs, hP]
    · rw [(importPathsSection_fields y a b hab).2.2.1, hP]
    · rw [(importSecuritySection_fields y a b hab).2.2.2.1, hP]
    · cases hf
  · intro habs
    rw [hrun]
    refine runSections_preserve (fun x => x.paths = d.paths) _ ?_ _ hinfo.2.1
    intro f hf a b hab hP
    simp only [List.mem_cons, List.mem_singleton] at hf
    rcases hf with rfl | rfl | rfl | rfl | rfl | hf
    · rw [(importServersSection_fields y a b hab).2.1, hP]
    · rw [(importSchemesSection_fields y a b hab).2.2.1, hP]
    · rw [(importSchemasSection_fields y a b hab).2.2.1, hP]
    · rw [(importPathsSection_fields y a b hab).2.2.2.2.2 habs, hP]
    · rw [(importSecuritySection_fields y a b hab).2.2.1, hP]
    · cases hf
  · intro habs
    rw [hrun]
    refine runSections_preserve (fun x => x.globalSecurity = d.globalSecurity) _ ?_ _
      hinfo.2.2.2.2.1
    intro f hf a b hab hP
    simp only [List.mem_cons, List.mem_singleton] at hf
    rcases hf with rfl | rfl | rfl | rfl | rfl | hf
    · rw [(importServersSection_fields y a b hab).2.2.2.2.1, hP]
    · rw [(importSchemesSection_fields y a b hab).2.2.2.2.1, hP]
    · rw [(importSchemasSection_fields y a b hab).2.2.2.2.1, hP]
    · rw [(importPathsSection_fields y a b hab).2.2.2.2.1, hP]
    · rw [(importSecuritySection_fields y a b hab).2.2.2.2.2 habs, hP]
    · cases hf

/-- Witness for C1 on a parsed source with none of the six keys and a
non-empty starting document. -/
theorem importFromYaml_partial_merge_witness :
    (importFromYaml false (some (Yaml.obj [("foo", Yaml.str "x")]))
        { emptyDocument with servers := [{ url := "u", description := "d" }] }).servers =
      [{ url := "u", description := "d" }] :=
  ((importFromYaml_partial_merge.2.2 (Yaml.obj [("foo", Yaml.str "x")])
      { emptyDocument with servers := [{ url := "u", description := "d" }] }).2.1) (by decide)

/-! ### Key-set lemmas for the schema operations (C8) -/

theorem mem_keys_jsObjSet (m : List (String × α)) (k : String) (v : α) (r : String) :
    r ∈ (jsObjSet m k v).map Prod.fst ↔ r = k ∨ r ∈ m.map Prod.fst := by
  unfold jsObjSet
  by_cases hany : m.any (fun kv => kv.1 = k)
  · rw [if_pos hany, List.map_map]
    simp only [List.mem_map, Function.comp]
    constructor
    · rintro ⟨kv, hkv, hr⟩
      by_cases hk : kv.1 = k
      · left
        rw [← hr]
        simp [hk]
      · right
        exact ⟨kv, hkv, by rw [← hr]; simp [hk]⟩
    · rintro (rfl | ⟨kv, hkv, rfl⟩)
      · rw [List.any_eq_true] at hany
        obtain ⟨kv, hkv, hk⟩ := hany
        simp only [decide_eq_true_eq] at hk
        exact ⟨kv, hkv, by simp [hk]⟩
      · by_cases hk : kv.1 = k
        · exact ⟨kv, hkv, by simp [hk]⟩
        · exact ⟨kv, hkv, by simp [hk]⟩
  · rw [if_neg hany]
    simp only [List.map_append, List.mem_append, List.map_cons, List.map_nil,
      List.mem_singleton, List.mem_cons]
    constructor
    · rintro (h | h)
      · exact Or.inr h
      · simp only [List.not_mem_nil, or_false] at h
        exact Or.inl h
    · rintro (h | h)
      · right
        simp [h]
      · exact Or.inl h

theorem mem_keys_jsObjDelete (m : List (String × α)) (k : String) (r : String) :
    r ∈ (jsObjDelete m k).map Prod.fst ↔ r ∈ m.map Prod.fst ∧ r ≠ k := by
  unfold jsObjDelete
  simp only [List.mem_map, List.mem_filter, decide_eq_true_eq]
  constructor
  · rintro ⟨kv, ⟨hkv, hne⟩, rfl⟩
    exact ⟨⟨kv, hkv, rfl⟩, hne⟩
  · rintro ⟨⟨kv, hkv, rfl⟩, hne⟩
    exact ⟨kv, ⟨hkv, hne⟩, rfl⟩

theorem replaceFirst_of_not_mem (l : List String) (o n : String) (ho : o ∉ l) :
    replaceFirst l o n = l := by
  induction l with
  | nil => rfl
  | cons x xs ih =>
    have hxo : ¬(x = o) := fun hx => ho (by rw [← hx]; exact List.mem_cons_self x xs)
    rw [replaceFirst, if_neg hxo, ih (fun hmem => ho (List.mem_cons_of_mem _ hmem))]

theorem mem_replaceFirst (l : List String) (o n r : String) (hnd : l.Nodup)
    (hr : r ∈ replaceFirst l o n) : r = n ∨ (r ∈ l ∧ r ≠ o) := by
  induction l with
  | nil => simp [replaceFirst] at hr
  | cons x xs ih =>
    rw [replaceFirst] at hr
    by_cases hx : x = o
    · rw [if_pos hx] at hr
      rcases List.mem_cons.mp hr with rfl | hr2
      · exact Or.inl rfl
      · refine Or.inr ⟨List.mem_cons_of_mem _ hr2, ?_⟩
        intro hro
        rw [hro, ← hx] at hr2
        exact (List.nodup_cons.mp hnd).1 hr2
    · rw [if_neg hx] at hr
      rcases List.mem_cons.mp hr with rfl | hr2
      · exact Or.inr ⟨List.mem_cons_self _ _, hx⟩
      · rcases ih (List.nodup_cons.mp hnd).2 hr2 with h1 | ⟨h2, h3⟩
        · exact Or.inl h1
        · exact Or.inr ⟨List.mem_cons_of_mem _ h2, h3⟩

/-- Counterexample to claim C8 as stated: a schema whose `required` list
names only existing properties but contains a duplicate (such a list can
enter the model through import, whose `required` is passed through from
the source) loses the subset property under `renameProperty`, because the
source rewrites only the first `indexOf` occurrence. -/
theorem renameProperty_required_subset_counterexample :
    (({ name := "S"
        properties := [("a", { type := "string", description := "" }),
                       ("b", { type := "string", description := "" })]
        required := ["a", "a"] } : Schema).required ⊆
      ({ name := "S"
         properties := [("a", { type := "string", description := "" }),
                        ("b", { type := "string", description := "" })]
         required := ["a", "a"] } : Schema).properties.map Prod.fst)
    ∧ ¬ ((renameProperty
          { name := "S"
            properties := [("a", { type := "string", description := "" }),
                           ("b", { type := "string", description := "" })]
            required := ["a", "a"] } "a" "c").required ⊆
        (renameProperty
          { name := "S"
            properties := [("a", { type := "string", description := "" }),
                           ("b", { type := "string", description := "" })]
            required := ["a", "a"] } "a" "c").properties.map Prod.fst) := by
  constructor
  · intro r hr
    simp only [List.mem_cons, List.not_mem_nil, or_false, or_self] at hr
    subst hr
    decide
  · intro hsub
    have : "a" ∈ (renameProperty
        { name := "S"
          properties := [("a", { type := "string", description := "" }),
                         ("b", { type := "string", description := "" })]
          required := ["a", "a"] } "a" "c").required := by decide
    have hmem := hsub this
    revert hmem
    decide

/-- Claim C8 (amended): if a schema's `required` names only existing
properties, the subset invariant is preserved by `removeProperty`
unconditionally, and by `renameProperty` provided `required` has no
duplicate entries (the source rewrites only the first occurrence of the
old name). -/
theorem schema_required_subset_preserved :
    (∀ (schema : Schema) (propertyName : String),
      schema.required ⊆ schema.properties.map Prod.fst →
      (removeProperty schema propertyName).required ⊆
        (removeProperty schema propertyName).properties.map Prod.fst)
    ∧ (∀ (schema : Schema) (oldName newName : String),
      schema.required ⊆ schema.properties.map Prod.fst →
      schema.required.Nodup →
      (renameProperty schema oldName newName).required ⊆
        (renameProperty schema oldName newName).properties.map Prod.fst) := by
  constructor
  · intro schema propertyName hsub r hr
    simp only [removeProperty, List.mem_filter, decide_eq_true_eq] at hr
    obtain ⟨hr1, hr2⟩ := hr
    have hk := hsub hr1
    show r ∈ (jsObjDelete schema.properties propertyName).map Prod.fst
    rw [mem_keys_jsObjDelete]
    exact ⟨hk, hr2⟩
  · intro schema oldName newName hsub hnd
    unfold renameProperty
    by_cases hg : oldName = newName ∨ isBlank newName
    · rw [if_pos hg]
      exact hsub
    · rw [if_neg hg]
      intro r hr
      cases hget : jsObjGet schema.properties oldName with
      | some property =>
        simp only [hget] at hr ⊢
        have hr' : r ∈ replaceFirst schema.required oldName newName := hr
        rcases mem_replaceFirst _ _ _ _ hnd hr' with rfl | ⟨hmem, hne⟩
        · show r ∈ (jsObjSet (jsObjDelete schema.properties oldName) r property).map Prod.fst
          rw [mem_keys_jsObjSet]
          exact Or.inl rfl
        · show r ∈ (jsObjSet (jsObjDelete schema.properties oldName) newName property).map Prod.fst
          rw [mem_keys_jsObjSet, mem_keys_jsObjDelete]
          exact Or.inr ⟨hsub hmem, hne⟩
      | none =>
        simp only [hget] at hr ⊢
        have hr' : r ∈ replaceFirst schema.required oldName newName := hr
        rcases mem_replaceFirst _ _ _ _ hnd hr' with rfl | ⟨hmem, hne⟩
        · show r ∈ (jsObjSet (jsObjDelete schema.properties oldName) r
              { type := "", description := "" }).map Prod.fst
          rw [mem_keys_jsObjSet]
          exact Or.inl rfl
        · show r ∈ (jsObjSet (jsObjDelete schema.properties oldName) newName
              { type := "", description := "" }).map Prod.fst
          rw [mem_keys_jsObjSet, mem_keys_jsObjDelete]
          exact Or.inr ⟨hsub hmem, hne⟩

/-- Witness for the amended C8 at a concrete schema. -/
theorem schema_required_subset_preserved_witness :
    (removeProperty
        { name := "S"
          properties := [("a", { type := "string", description := "" }),
                         ("b", { type := "string", description := "" })]
          required := ["a", "b"] } "a").required ⊆
      (removeProperty
        { name := "S"
          properties := [("a", { type := "string", description := "" }),
                         ("b", { type := "string", description := "" })]
          required := ["a", "b"] } "a").properties.map Prod.fst :=
  schema_required_subset_preserved.1
    { name := "S"
      properties := [("a", { type := "string", description := "" }),
                     ("b", { type := "string", description := "" })]
      required := ["a", "b"] } "a" (by decide)

/-! ### Counting lemmas for the path-parameter derivation (C4) -/

theorem countP_loc_path (l : List Parameter) (x : String) :
    l.countP (fun p => p.name == x && p.loc == "path") =
      (l.filter (fun p => p.loc = "path")).countP (fun p => p.name == x) := by
  induction l with
  | nil => rfl
  | cons p ps ih =>
    rw [List.countP_cons, List.filter_cons]
    by_cases hl : p.loc = "path"
    · simp [hl, List.countP_cons, ih]
    · have hfalse : (p.name == x && p.loc == "path") = false := by simp [hl]
      simp [hl, ih, hfalse]

theorem countP_name_eq_one (l : List Parameter) (x : String)
    (hnd : (l.map (fun p => p.name)).Nodup) (hx : ∃ p ∈ l, p.name = x) :
    l.countP (fun p => p.name == x) = 1 := by
  induction l with
  | nil =>
    obtain ⟨p, hp, _⟩ := hx
    cases hp
  | cons p ps ih =>
    rw [List.countP_cons]
    simp only [List.map_cons, List.nodup_cons] at hnd
    obtain ⟨q, hq, hqx⟩ := hx
    rcases List.mem_cons.mp hq with rfl | hq2
    · have hz : ps.countP (fun r => r.name == x) = 0 := by
        rw [List.countP_eq_zero]
        intro r hr
        simp only [beq_iff_eq]
        intro he
        exact hnd.1 (List.mem_map.mpr ⟨r, hr, by rw [he, hqx]⟩)
      simp [hz, hqx]
    · have h1 := ih hnd.2 ⟨q, hq2, hqx⟩
      have hpx : ((fun r : Parameter => r.name == x) p) = false := by
        simp only [beq_eq_false_iff_ne, ne_eq]
        intro he
        exact hnd.1 (List.mem_map.mpr ⟨q, hq2, by rw [hqx, ← he]⟩)
      simp [h1, hpx]

theorem countP_name_eq_zero (l : List Parameter) (x : String)
    (hx : ∀ p ∈ l, p.name ≠ x) : l.countP (fun p => p.name == x) = 0 := by
  rw [List.countP_eq_zero]
  intro p hp
  simp only [beq_iff_eq]
  exact hx p hp

/-- Counterexample to claim C4 as stated: a placeholder repeated in the
path string (`/a/{x}/{x}`) makes the derivation push one new parameter per
occurrence, so the operation ends up with two path parameters named `x`
instead of exactly one. -/
theorem derivePathParams_duplicate_counterexample :
    (derivePathParams "/a/{x}/{x}" []).countP
        (fun p => p.name == "x" && p.loc == "path") = 2 ∧
      ¬ ((derivePathParams "/a/{x}/{x}" []).countP
        (fun p => p.name == "x" && p.loc == "path") = 1) := by
  constructor
  · decide
  · decide

/-- Claim C4 (amended): after a path-string mutation, provided each
placeholder occurs at most once in the path string and the existing path
parameters have pairwise-distinct names and `required = true` (as all
UI-derived ones do), the parameter list contains exactly one parameter
named `x` with location path for every placeholder `{x}`, every path
parameter is required, existing path parameters are never deleted, and the
resulting order is existing path parameters, then newly discovered ones,
then non-path parameters (or the list is unchanged when nothing new was
discovered). -/
theorem derivePathParams_spec (currentPath : String) (parameters : List Parameter)
    (hU : (extractPlaceholders currentPath.data).Nodup)
    (hN : ((parameters.filter (fun p => p.loc = "path")).map (fun p => p.name)).Nodup)
    (hE : ∀ p ∈ parameters, p.loc = "path" → p.required = true) :
    (∀ x ∈ extractPlaceholders currentPath.data,
      (derivePathParams currentPath parameters).countP
        (fun p => p.name == x && p.loc == "path") = 1)
    ∧ (∀ p ∈ derivePathParams currentPath parameters, p.loc = "path" → p.required = true)
    ∧ (∀ p ∈ parameters, p.loc = "path" → p ∈ derivePathParams currentPath parameters)
    ∧ (derivePathParams currentPath parameters = parameters ∨
        derivePathParams currentPath parameters =
          parameters.filter (fun p => p.loc = "path")
          ++ ((extractPlaceholders currentPath.data).filter
                (fun paramName => ¬ (parameters.filter (fun p => p.loc = "path")).any
                  (fun p => p.name = paramName))).map mkPathParam
          ++ parameters.filter (fun p => p.loc ≠ "path")) := by
  by_cases hph : extractPlaceholders currentPath.data = []
  · have hd : derivePathParams currentPath parameters = parameters := by
      unfold derivePathParams
      rw [if_pos hph]
    rw [hd, hph]
    exact ⟨fun x hx => absurd hx (List.not_mem_nil x), hE, fun p hp _ => hp, Or.inl rfl⟩
  · have hd : derivePathParams currentPath parameters =
        (if ((extractPlaceholders currentPath.data).filter
              (fun paramName => ¬ (parameters.filter (fun p => p.loc = "path")).any
                (fun p => p.name = paramName))).map mkPathParam ≠ [] then
          parameters.filter (fun p => p.loc = "path")
          ++ ((extractPlaceholders currentPath.data).filter
                (fun paramName => ¬ (parameters.filter (fun p => p.loc = "path")).any
                  (fun p => p.name = paramName))).map mkPathParam
          ++ parameters.filter (fun p => p.loc ≠ "path")
        else parameters) := by
      unfold derivePathParams
      rw [if_neg hph]
    by_cases hnew : ((extractPlaceholders currentPath.data).filter
        (fun paramName => ¬ (parameters.filter (fun p => p.loc = "path")).any
          (fun p => p.name = paramName))).map mkPathParam = []
    · rw [hnew] at hd
      simp only [ne_eq, not_true_eq_false, if_false] at hd
      rw [hd]
      refine ⟨?_, hE, fun p hp _ => hp, Or.inl rfl⟩
      intro x hx
      -- every placeholder already has an existing path parameter
      have hall : (parameters.filter (fun p => p.loc = "path")).any
          (fun p => p.name = x) = true := by
        by_contra hc
        have hmem : x ∈ (extractPlaceholders currentPath.data).filter
            (fun paramName => ¬ (parameters.filter (fun p => p.loc = "path")).any
              (fun p => p.name = paramName)) := by
          rw [List.mem_filter]
          exact ⟨hx, by simpa using hc⟩
        rw [List.map_eq_nil] at hnew
        rw [hnew] at hmem
        cases hmem
      rw [countP_loc_path]
      apply countP_name_eq_one _ _ hN
      rw [List.any_eq_true] at hall
      obtain ⟨p, hp, hpx⟩ := hall
      exact ⟨p, hp, by simpa using hpx⟩
    · rw [if_pos hnew] at hd
      rw [hd]
      refine ⟨?_, ?_, ?_, Or.inr rfl⟩
      · intro x hx
        rw [List.countP_append, List.countP_append]
        have hothers : (parameters.filter (fun p => p.loc ≠ "path")).countP
            (fun p => p.name == x && p.loc == "path") = 0 := by
          rw [List.countP_eq_zero]
          intro p hp
          rw [List.mem_filter] at hp
          have : p.loc ≠ "path" := by simpa using hp.2
          simp [this]
        rw [hothers]
        by_cases hex : (parameters.filter (fun p => p.loc = "path")).any
            (fun p => p.name = x) = true
        · -- counted once among the preserved path parameters, zero among new
          have h1 : (parameters.filter (fun p => p.loc = "path")).countP
              (fun p => p.name == x && p.loc == "path") = 1 := by
            have : (parameters.filter (fun p => p.loc = "path")).countP
                (fun p => p.name == x && p.loc == "path") =
                (parameters.filter (fun p => p.loc = "path")).countP
                  (fun p => p.name == x) := by
              apply List.countP_congr
              intro p hp
              rw [List.mem_filter] at hp
              have : p.loc = "path" := by simpa using hp.2
              simp [this]
            rw [this]
            apply countP_name_eq_one _ _ hN
            rw [List.any_eq_true] at hex
            obtain ⟨p, hp, hpx⟩ := hex
            exact ⟨p, hp, by simpa using hpx⟩
          have h2 : (((extractPlaceholders currentPath.data).filter
              (fun paramName => ¬ (parameters.filter (fun p => p.loc = "path")).any
                (fun p => p.name = paramName))).map mkPathParam).countP
              (fun p => p.name == x && p.loc == "path") = 0 := by
            rw [List.countP_eq_zero]
            intro p hp
            rw [List.mem_map] at hp
            obtain ⟨n, hn, rfl⟩ := hp
            rw [List.mem_filter] at hn
            have hne : n ≠ x := by
              intro rfl'
              rw [rfl'] at hn
              have := hn.2
              simp [hex] at this
            simp [mkPathParam, hne]
          rw [h1, h2]
        · -- counted once among the new parameters
          have h1 : (parameters.filter (fun p => p.loc = "path")).countP
              (fun p => p.name == x && p.loc == "path") = 0 := by
            rw [List.countP_eq_zero]
            intro p hp
            have hne : p.name ≠ x := by
              intro he
              apply hex
              rw [List.any_eq_true]
              exact ⟨p, hp, by simp [he]⟩
            simp [hne]
          have h2 : (((extractPlaceholders currentPath.data).filter
              (fun paramName => ¬ (parameters.filter (fun p => p.loc = "path")).any
                (fun p => p.name = paramName))).map mkPathParam).countP
              (fun p => p.name == x && p.loc == "path") = 1 := by
            rw [List.countP_map]
            have heq : ((fun p : Parameter => p.name == x && p.loc == "path") ∘ mkPathParam) =
                (fun n => n == x) := by
              funext n
              simp [mkPathParam]
            rw [heq]
            have hmem : x ∈ (extractPlaceholders currentPath.data).filter
                (fun paramName => ¬ (parameters.filter (fun p => p.loc = "path")).any
                  (fun p => p.name = paramName)) := by
              rw [List.mem_filter]
              exact ⟨hx, by simpa using hex⟩
            have hndf : ((extractPlaceholders currentPath.data).filter
                (fun paramName => ¬ (parameters.filter (fun p => p.loc = "path")).any
                  (fun p => p.name = paramName))).Nodup := hU.filter _
            simpa [List.count] using List.count_eq_one_of_mem hndf hmem
          rw [h1, h2]
      · intro p hp
        rw [List.mem_append, List.mem_append] at hp
        rcases hp with (hp | hp) | hp
        · rw [List.mem_filter] at hp
          exact fun hl => hE p hp.1 hl
        · rw [List.mem_map] at hp
          obtain ⟨n, _, rfl⟩ := hp
          intro _
          rfl
        · rw [List.mem_filter] at hp
          exact fun hl => hE p hp.1 hl
      · intro p hp hl
        rw [List.mem_append, List.mem_append]
        exact Or.inl (Or.inl (List.mem_filter.mpr ⟨hp, by simp [hl]⟩))

/-- Witness for the amended C4 at a concrete path and empty parameter
list. -/
theorem derivePathParams_spec_witness :
    (derivePathParams "/pets/{petId}" []).countP
      (fun p => p.name == "petId" && p.loc == "path") = 1 :=
  (derivePathParams_spec "/pets/{petId}" [] (by decide) (by decide) (by decide)).1
    "petId" (by decide)

/-! ### String-position helpers for line disambiguation (C5, C3) -/

theorem str_eq_of_data {a b : String} (h : a.data = b.data) : a = b := by
  cases a
  cases b
  exact congrArg String.mk h

theorem append_ne_append (p x q y : String) (i : Nat) (hip : i < p.data.length)
    (hiq : i < q.data.length) (h : p.data.get? i ≠ q.data.get? i) : p ++ x ≠ q ++ y := by
  apply ne_of_get _ _ i
  rw [data_append, data_append, List.get?_append hip, List.get?_append hiq]
  exact h

/-- A line whose ninth character is not a single quote is never a response
status-code key line. -/
theorem ne_key_of_get8 (l c : String) (h : l.data.get? 8 ≠ some '\'') :
    l ≠ "        '" ++ (c ++ "':") := by
  apply ne_of_get _ _ 8
  rw [data_append, List.get?_append (by decide : (8 : Nat) < "        '".data.length)]
  exact fun he => h (he.trans (by decide))

theorem respKey_inj {a b : String}
    (h : "        '" ++ (a ++ "':") = "        '" ++ (b ++ "':")) : a = b := by
  have hd := congrArg String.data h
  simp only [data_append] at hd
  exact str_eq_of_data (List.append_cancel_right (List.append_cancel_left hd))

theorem responseLines_key_count (r : Response) (c : String) :
    (responseLines r).countP (fun l => l == "        '" ++ (c ++ "':")) =
      if r.statusCode = c then 1 else 0 := by
  unfold responseLines
  rw [List.countP_cons, List.countP_cons]
  have hdesc : (("          description: " ++ r.description) ==
      ("        '" ++ (c ++ "':"))) = false := by
    rw [beq_eq_false_iff_ne]
    exact append_ne_append _ _ _ _ 8 (by decide) (by decide) (by decide)
  have hhead : (("        '" ++ (r.statusCode ++ "':")) == ("        '" ++ (c ++ "':"))) =
      (if r.statusCode = c then true else false) := by
    by_cases hc : r.statusCode = c
    · simp [hc]
    · simp only [hc, if_false, beq_eq_false_iff_ne, ne_eq]
      exact fun h => hc (respKey_inj h)
  have hrest : (match r.content with
      | some content =>
        let schema := (content.memberOpt "application/json").bind (fun aj => aj.memberOpt "schema")
        match schema with
        | some sch =>
          if sch.truthy then
            ["          content:", "            application/json:", "              schema:"]
            ++ (let ref := sch.member "$ref"
                if optTruthy ref then
                  ["                $ref: '" ++ ((ref.getD .null).asString ++ "'")]
                else ["                type: " ++ getStrOr (sch.member "type") "object"])
          else []
        | none => []
      | none => []).countP (fun l => l == "        '" ++ (c ++ "':")) = 0 := by
    cases hco : r.content with
    | none => rfl
    | some content =>
      rw [List.countP_eq_zero]
      intro l hl
      simp only [beq_iff_eq]
      have hl2 : l ∈ (match (content.memberOpt "application/json").bind
          (fun aj => aj.memberOpt "schema") with
        | some sch =>
          if sch.truthy then
            ["          content:", "            application/json:", "              schema:"]
            ++ (if optTruthy (sch.member "$ref") then
                  ["                $ref: '" ++ (((sch.member "$ref").getD .null).asString ++ "'")]
                else ["                type: " ++ getStrOr (sch.member "type") "object"])
          else []
        | none => []) := hl
      clear hl
      cases hsch : (content.memberOpt "application/json").bind
          (fun aj => aj.memberOpt "schema") with
      | none => rw [hsch] at hl2; cases hl2
      | some sch =>
        rw [hsch] at hl2
        have hl3 : l ∈ (if sch.truthy then
            ["          content:", "            application/json:", "              schema:"]
            ++ (if optTruthy (sch.member "$ref") then
                  ["                $ref: '" ++ (((sch.member "$ref").getD .null).asString ++ "'")]
                else ["                type: " ++ getStrOr (sch.member "type") "object"])
          else []) := hl2
        clear hl2
        cases ht : sch.truthy with
        | false => rw [ht] at hl3; cases hl3
        | true =>
          rw [ht] at hl3
          simp only [if_true, List.mem_append, List.mem_cons, List.not_mem_nil,
            or_false] at hl3
          rcases hl3 with (rfl | rfl | rfl) | hl3
          · exact ne_key_of_get8 _ _ (by decide)
          · exact ne_key_of_get8 _ _ (by decide)
          · exact ne_key_of_get8 _ _ (by decide)
          · cases hrf : optTruthy (sch.member "$ref") with
            | false =>
              rw [hrf] at hl3
              simp at hl3
              subst hl3
              exact append_ne_append _ _ _ _ 8 (by decide) (by decide) (by decide)
            | true =>
              rw [hrf] at hl3
              simp at hl3
              subst hl3
              exact append_ne_append _ _ _ _ 8 (by decide) (by decide) (by decide)
  rw [hdesc, hhead, hrest]
  by_cases hc : r.statusCode = c <;> simp [hc]

/-- Counterexample to claim C5 as stated: two responses sharing status
code 200 produce the `'200':` key line twice in the serialized responses
block — the serializer emits one block per list entry and does not key by
status code. -/
theorem responses_duplicate_status_counterexample :
    (responsesLines [{ statusCode := "200", description := "A" },
        { statusCode := "200", description := "B" }]).count "        '200':" = 2 ∧
      ¬ ((responsesLines [{ statusCode := "200", description := "A" },
        { statusCode := "200", description := "B" }]).count "        '200':" = 1) := by
  constructor
  · decide
  · decide

/-- Claim C5 (amended): the serialized responses block contains one
`'code':` key line per responses-list entry with that status code, in
list order; a duplicated status code therefore appears as a duplicated
mapping key rather than being keyed exactly once. -/
theorem responsesLines_one_key_per_entry (responses : List Response) (c : String)
    (h : responses ≠ []) :
    (responsesLines responses).countP (fun l => l == "        '" ++ (c ++ "':")) =
      responses.countP (fun r => r.statusCode == c) := by
  unfold responsesLines
  rw [if_pos h, List.countP_cons]
  have hheader : (("      responses:" : String) == ("        '" ++ (c ++ "':"))) = false := by
    rw [beq_eq_false_iff_ne]
    exact ne_key_of_get8 _ _ (by decide)
  rw [hheader]
  simp only [Bool.false_eq_true, if_false, Nat.add_zero]
  induction responses with
  | nil => rfl
  | cons r rest ih =>
    rw [List.flatMap_cons, List.countP_append, responseLines_key_count, List.countP_cons]
    by_cases hrest : rest = []
    · subst hrest
      by_cases hc : r.statusCode = c <;> simp [hc]
    · rw [ih hrest]
      by_cases hc : r.statusCode = c <;> simp [hc] <;> omega

/-- Witness for the amended C5 at a concrete two-entry responses list. -/
theorem responsesLines_one_key_per_entry_witness :
    (responsesLines [{ statusCode := "200", description := "A" },
        { statusCode := "404", description := "B" }]).countP
      (fun l => l == "        '" ++ ("200" ++ "':")) =
      ([{ statusCode := "200", description := "A" },
        ({ statusCode := "404", description := "B" } : Response)]).countP
        (fun r => r.statusCode == "200") :=
  responsesLines_one_key_per_entry _ "200" (by decide)

/-- Counterexample to claim C6 as stated: the serializer in actual use
(`generateProperYaml`) emits a title containing a colon bare, not
double-quoted. -/
theorem scalar_quoting_counterexample :
    needsQuoting "a:b" = true ∧
      "  title: a:b" ∈ serializeLines
        { emptyDocument with apiInfo := { title := "a:b", description := "", version := "1.0.0" } } ∧
      ¬ ("  title: \"a:b\"" ∈ serializeLines
        { emptyDocument with apiInfo := { title := "a:b", description := "", version := "1.0.0" } }) := by
  refine ⟨by decide, by decide, by decide⟩

/-- Claim C6 (amended): the quoting rule — double-quote (escaping internal
double quotes) exactly the scalar strings containing a colon, newline or
single quote, emit all others bare — is implemented only by the unused
generic helper `generateYaml`; the serializer the preview/export path
actually calls (`generateProperYaml`) interpolates scalar strings bare
regardless of content. -/
theorem scalar_quoting_rule :
    (∀ spaces key value : String, needsQuoting value = true →
      helperScalarLine spaces key value =
        spaces ++ key ++ ": \"" ++ escapeDoubleQuotes value ++ "\"")
    ∧ (∀ spaces key value : String, needsQuoting value = false →
      helperScalarLine spaces key value = spaces ++ key ++ ": " ++ value)
    ∧ (∀ d : Document, d.apiInfo.title ≠ "" →
      ("  title: " ++ d.apiInfo.title) ∈ serializeLines d) := by
  refine ⟨?_, ?_, ?_⟩
  · intro spaces key value h
    unfold helperScalarLine
    rw [if_pos h]
  · intro spaces key value h
    unfold helperScalarLine
    rw [if_neg (by simp [h])]
  · intro d ht
    apply List.mem_cons_of_mem
    apply List.mem_append_left
    apply List.mem_append_left
    apply List.mem_append_left
    apply List.mem_append_left
    unfold infoLines
    apply List.mem_cons_of_mem
    apply List.mem_append_left
    apply List.mem_append_left
    apply List.mem_append_left
    unfold strLine
    rw [if_pos ht]
    exact List.mem_singleton.mpr rfl

/-- Witness for the amended C6 at concrete scalars and a concrete
document. -/
theorem scalar_quoting_rule_witness :
    helperScalarLine "  " "title" "a:b" =
        "  " ++ "title" ++ ": \"" ++ escapeDoubleQuotes "a:b" ++ "\"" ∧
      helperScalarLine "  " "title" "ab" = "  " ++ "title" ++ ": " ++ "ab" ∧
      ("  title: " ++ "t") ∈ serializeLines
        { emptyDocument with apiInfo := { title := "t", description := "", version := "1.0.0" } } :=
  ⟨scalar_quoting_rule.1 "  " "title" "a:b" (by decide),
   scalar_quoting_rule.2.1 "  " "title" "ab" (by decide),
   scalar_quoting_rule.2.2 _ (by decide)⟩

/-! ### No top-level `security:` line machinery (C3) -/

/-- Every line of the list differs from the top-level `security:` line. -/
def NoSec (ls : List String) : Prop := ∀ l ∈ ls, l ≠ "security:"

theorem ne_sec_of_head (a : String) (h : a.data.get? 0 ≠ some 's') : a ≠ "security:" := by
  intro e
  apply h
  rw [e]
  decide

theorem noSec_nil : NoSec [] := fun l hl => absurd hl (List.not_mem_nil l)

theorem noSec_cons {x : String} {ls : List String} (hx : x ≠ "security:") (h : NoSec ls) :
    NoSec (x :: ls) := by
  intro l hl
  rcases List.mem_cons.mp hl with rfl | h2
  exacts [hx, h l h2]

theorem noSec_append {l1 l2 : List String} (h1 : NoSec l1) (h2 : NoSec l2) :
    NoSec (l1 ++ l2) := by
  intro l hl
  rcases List.mem_append.mp hl with h | h
  exacts [h1 l h, h2 l h]

theorem noSec_ite (c : Prop) [Decidable c] {l1 l2 : List String}
    (h1 : NoSec l1) (h2 : NoSec l2) : NoSec (if c then l1 else l2) := by
  split
  exacts [h1, h2]

theorem noSec_map (f : α → String) (xs : List α) (h : ∀ x ∈ xs, f x ≠ "security:") :
    NoSec (xs.map f) := by
  intro l hl
  rw [List.mem_map] at hl
  obtain ⟨x, hx, rfl⟩ := hl
  exact h x hx

theorem noSec_flatMap (f : α → List String) (xs : List α) (h : ∀ x ∈ xs, NoSec (f x)) :
    NoSec (xs.flatMap f) := by
  intro l hl
  rw [List.mem_flatMap] at hl
  obtain ⟨x, hx, hlx⟩ := hl
  exact h x hx l hlx

theorem noSec_strLine (pre s : String) (hp : pre.data ≠ []) (hc : pre.data.get? 0 ≠ some 's') :
    NoSec (strLine pre s) := by
  unfold strLine
  split
  · exact noSec_cons (ne_sec_append _ _ hp hc) noSec_nil
  · exact noSec_nil

theorem noSec_optLine (pre : String) (v : Option String) (hp : pre.data ≠ [])
    (hc : pre.data.get? 0 ≠ some 's') : NoSec (optLine pre v) := by
  unfold optLine
  cases v with
  | none => exact noSec_nil
  | some s => exact noSec_strLine _ _ hp hc

theorem noSec_optYamlLine (pre : String) (v : Option Yaml) (hp : pre.data ≠ [])
    (hc : pre.data.get? 0 ≠ some 's') : NoSec (optYamlLine pre v) := by
  unfold optYamlLine
  cases v with
  | none => exact noSec_nil
  | some x => exact noSec_ite _ (noSec_cons (ne_sec_append _ _ hp hc) noSec_nil) noSec_nil

theorem noSec_securityItemLines (fi ci : String) (sec : Yaml)
    (hfp : fi.data ≠ []) (hfc : fi.data.get? 0 ≠ some 's')
    (hcp : ci.data ≠ []) (hcc : ci.data.get? 0 ≠ some 's') :
    NoSec (securityItemLines fi ci sec) := by
  unfold securityItemLines
  cases h : sec.entries with
  | nil => exact noSec_cons (ne_sec_of_head _ hfc) noSec_nil
  | cons kv rest =>
    obtain ⟨n, sc⟩ := kv
    exact noSec_cons (ne_sec_append _ _ hfp hfc)
      (noSec_map _ _ (fun kv2 _ => ne_sec_append _ _ hcp hcc))

theorem noSec_serverLines (server : Server) : NoSec (serverLines server) := by
  unfold serverLines
  exact noSec_cons (ne_sec_append _ _ (by decide) (by decide))
    (noSec_strLine _ _ (by decide) (by decide))

theorem noSec_infoLines (info : ApiInfo) : NoSec (infoLines info) := by
  unfold infoLines
  apply noSec_cons (by decide)
  apply noSec_append (noSec_append (noSec_append
    (noSec_strLine _ _ (by decide) (by decide))
    (noSec_strLine _ _ (by decide) (by decide)))
    (noSec_strLine _ _ (by decide) (by decide)))
  cases info.contact with
  | none => exact noSec_nil
  | some contact =>
    exact noSec_cons (by decide)
      (noSec_append (noSec_append
        (noSec_optLine _ _ (by decide) (by decide))
        (noSec_optLine _ _ (by decide) (by decide)))
        (noSec_optLine _ _ (by decide) (by decide)))

theorem noSec_serversLines (servers : List Server) : NoSec (serversLines servers) := by
  unfold serversLines
  exact noSec_ite _
    (noSec_cons (by decide) (noSec_flatMap _ _ (fun s _ => noSec_serverLines s)))
    noSec_nil

theorem noSec_paramLines (param : Parameter) : NoSec (paramLines param) := by
  unfold paramLines
  exact noSec_cons (ne_sec_append _ _ (by decide) (by decide))
    (noSec_cons (ne_sec_append _ _ (by decide) (by decide))
      (noSec_append (noSec_append (noSec_append
        (noSec_ite _ (noSec_cons (by decide) noSec_nil) noSec_nil)
        (noSec_strLine _ _ (by decide) (by decide)))
        (noSec_optLine _ _ (by decide) (by decide)))
        (noSec_cons (by decide)
          (noSec_cons (ne_sec_append _ _ (by decide) (by decide)) noSec_nil))))

theorem noSec_requestBodyLines (rb : RequestBody) : NoSec (requestBodyLines rb) := by
  unfold requestBodyLines
  exact noSec_cons (by decide)
    (noSec_append (noSec_append (noSec_append
      (noSec_ite _ (noSec_cons (by decide) noSec_nil) noSec_nil)
      (noSec_cons (by decide) (noSec_cons (by decide) (noSec_cons (by decide) noSec_nil))))
      (noSec_ite _
        (noSec_cons (ne_sec_append _ _ (by decide) (by decide)) noSec_nil)
        (noSec_cons (by decide) noSec_nil)))
      (noSec_cons (by decide) noSec_nil))

theorem noSec_responseLines (r : Response) : NoSec (responseLines r) := by
  unfold responseLines
  apply noSec_cons (ne_sec_append _ _ (by decide) (by decide))
  apply noSec_cons (ne_sec_append _ _ (by decide) (by decide))
  cases r.content with
  | none => exact noSec_nil
  | some content =>
    have h : NoSec (match (content.memberOpt "application/json").bind
        (fun aj => aj.memberOpt "schema") with
      | some sch =>
        if sch.truthy then
          ["          content:", "            application/json:", "              schema:"]
          ++ (if optTruthy (sch.member "$ref") then
                ["                $ref: '" ++ (((sch.member "$ref").getD .null).asString ++ "'")]
              else ["                type: " ++ getStrOr (sch.member "type") "object"])
        else []
      | none => []) := by
      cases (content.memberOpt "application/json").bind (fun aj => aj.memberOpt "schema") with
      | none => exact noSec_nil
      | some sch =>
        exact noSec_ite _
          (noSec_append
            (noSec_cons (by decide) (noSec_cons (by decide) (noSec_cons (by decide) noSec_nil)))
            (noSec_ite _
              (noSec_cons (ne_sec_append _ _ (by decide) (by decide)) noSec_nil)
              (noSec_cons (ne_sec_append _ _ (by decide) (by decide)) noSec_nil)))
          noSec_nil
    exact h

theorem noSec_responsesLines (responses : List Response) : NoSec (responsesLines responses) := by
  unfold responsesLines
  exact noSec_ite _
    (noSec_cons (by decide) (noSec_flatMap _ _ (fun r _ => noSec_responseLines r)))
    noSec_nil

theorem noSec_operationLines (method : String) (op : Operation) :
    NoSec (operationLines method op) := by
  unfold operationLines
  apply noSec_cons (ne_sec_append _ _ (by decide) (by decide))
  apply noSec_append
  · apply noSec_append
    · apply noSec_append
      · apply noSec_append
        · apply noSec_append
          · apply noSec_append
            · apply noSec_append
              · exact noSec_strLine _ _ (by decide) (by decide)
              · exact noSec_strLine _ _ (by decide) (by decide)
            · exact noSec_strLine _ _ (by decide) (by decide)
          · apply noSec_ite
            · apply noSec_cons (by decide)
              apply noSec_map
              intro t ht
              exact ne_sec_append "      - " t (by decide) (by decide)
            · exact noSec_nil
        · apply noSec_ite
          · apply noSec_cons (by decide)
            apply noSec_flatMap
            intro s hs
            exact noSec_securityItemLines "      - " "        " s
              (by decide) (by decide) (by decide) (by decide)
          · exact noSec_nil
      · apply noSec_ite
        · apply noSec_cons (by decide)
          apply noSec_flatMap
          intro p hp
          exact noSec_paramLines p
        · exact noSec_nil
    · cases op.requestBody with
      | none => exact noSec_nil
      | some rb => exact noSec_requestBodyLines rb
  · exact noSec_responsesLines _

theorem noSec_pathEntryLines (entry : String × List (String × Operation)) :
    NoSec (pathEntryLines entry) := by
  unfold pathEntryLines
  exact noSec_cons (ne_sec_append _ _ (by decide) (by decide))
    (noSec_flatMap _ _ (fun mo _ => noSec_operationLines mo.1 mo.2))

theorem noSec_pathsLines (pathsObj : List (String × List (String × Operation))) :
    NoSec (pathsLines pathsObj) := by
  unfold pathsLines
  exact noSec_ite _
    (noSec_cons (by decide) (noSec_flatMap _ _ (fun e _ => noSec_pathEntryLines e)))
    noSec_nil

theorem noSec_schemaPropLines (kv : String × SchemaProperty) : NoSec (schemaPropLines kv) := by
  unfold schemaPropLines
  exact noSec_cons (ne_sec_append _ _ (by decide) (by decide))
    (noSec_cons (ne_sec_append _ _ (by decide) (by decide))
      (noSec_append
        (noSec_strLine _ _ (by decide) (by decide))
        (noSec_optLine _ _ (by decide) (by decide))))

theorem noSec_schemaEntryLines (kv : String × Schema) : NoSec (schemaEntryLines kv) := by
  unfold schemaEntryLines
  exact noSec_cons (ne_sec_append _ _ (by decide) (by decide))
    (noSec_cons (ne_sec_append _ _ (by decide) (by decide))
      (noSec_append
        (noSec_ite _ (noSec_cons (by decide)
          (noSec_flatMap _ _ (fun p _ => noSec_schemaPropLines p))) noSec_nil)
        (noSec_ite _ (noSec_cons (by decide)
          (noSec_map _ _ (fun req _ => ne_sec_append _ _ (by decide) (by decide))))
          noSec_nil)))

theorem noSec_flowLines (kv : String × Yaml) : NoSec (flowLines kv) := by
  unfold flowLines
  apply noSec_cons (ne_sec_append _ _ (by decide) (by decide))
  refine noSec_append (noSec_append
    (noSec_optYamlLine _ _ (by decide) (by decide))
    (noSec_optYamlLine _ _ (by decide) (by decide))) ?_
  exact noSec_ite _
    (noSec_cons (by decide)
      (noSec_map _ _ (fun s _ => ne_sec_append _ _ (by decide) (by decide))))
    noSec_nil

theorem noSec_schemeEntryLines (kv : String × SecurityScheme) :
    NoSec (schemeEntryLines kv) := by
  unfold schemeEntryLines
  apply noSec_cons (ne_sec_append _ _ (by decide) (by decide))
  apply noSec_cons (ne_sec_append _ _ (by decide) (by decide))
  refine noSec_append (noSec_append
    (noSec_optLine _ _ (by decide) (by decide))
    (noSec_optLine _ _ (by decide) (by decide))) ?_
  cases kv.2.flows with
  | none => exact noSec_nil
  | some flows =>
    exact noSec_ite _
      (noSec_cons (by decide) (noSec_flatMap _ _ (fun f _ => noSec_flowLines f)))
      noSec_nil

theorem noSec_componentsLines (schemas : List (String × Schema))
    (schemes : List (String × SecurityScheme)) : NoSec (componentsLines schemas schemes) := by
  unfold componentsLines
  exact noSec_cons (by decide)
    (noSec_append
      (noSec_ite _ (noSec_cons (by decide)
        (noSec_flatMap _ _ (fun s _ => noSec_schemaEntryLines s))) noSec_nil)
      (noSec_ite _ (noSec_cons (by decide)
        (noSec_flatMap _ _ (fun s _ => noSec_schemeEntryLines s))) noSec_nil))

/-- Counterexample to claim C3 as stated: the initial document has no
schemas and no security schemes, yet its serialization still contains the
`components:` line, because the Index page unconditionally builds a
components object. -/
theorem components_always_emitted_counterexample :
    emptyDocument.schemas = [] ∧ emptyDocument.securitySchemes = [] ∧
      "components:" ∈ serializeLines emptyDocument := by
  refine ⟨rfl, rfl, by decide⟩

/-- Claim C3 (amended): the serializer emits the `components:` line for
every document — with no child keys beneath it when schemas and security
schemes are both empty — and emits no top-level `security:` line whenever
the global security list is empty. -/
theorem serialize_components_always_security_conditional (d : Document) :
    "components:" ∈ serializeLines d ∧
      (d.globalSecurity = [] → "security:" ∉ serializeLines d) := by
  constructor
  · unfold serializeLines
    apply List.mem_cons_of_mem
    apply List.mem_append_left
    apply List.mem_append_right
    unfold componentsLines
    exact List.mem_cons_self _ _
  · intro hgs hmem
    have hns : NoSec (serializeLines d) := by
      unfold serializeLines
      apply noSec_cons (by decide)
      refine noSec_append (noSec_append (noSec_append (noSec_append
        (noSec_infoLines _)
        (noSec_serversLines _))
        (noSec_pathsLines _))
        (noSec_componentsLines _ _)) ?_
      rw [hgs]
      exact noSec_nil
    exact hns _ hmem rfl

/-- Witness for the amended C3 at the empty document. -/
theorem serialize_components_always_security_conditional_witness :
    "components:" ∈ serializeLines emptyDocument ∧
      "security:" ∉ serializeLines emptyDocument :=
  ⟨(serialize_components_always_security_conditional emptyDocument).1,
   (serialize_components_always_security_conditional emptyDocument).2 rfl⟩

end YamlStudio
